import Mathlib

/-!
Verification of the post-deduplication and AI-extraction reconciliation core of
the batelec-monitor repository.

The Python sources are embedded shallowly:

* Python `str` values are Lean `String`s; `str.strip` / `str.upper` and the
  code-point comparison used by `sorted` are modelled as executable functions
  on the underlying character lists.
* `dict` inputs of heterogeneous shape are modelled by dedicated inductive
  types whose constructors cover exactly the shape distinctions the code
  tests with `isinstance` / `.get`.
* The Supabase store is a record of tables (lists of rows); an insert appends
  a row carrying a fresh identifier.  A raised exception of a persistence
  call is modelled by an explicit failure oracle (a list of table names whose
  inserts raise).
* The SHA-256 digest of `generate_post_hash` is modelled as an injective
  function, i.e. identified with the canonical string it hashes.
-/

/-! ### Python string primitives -/

/-- Model of the default `str.strip()` whitespace test. -/
def isPySpace (c : Char) : Bool := c.isWhitespace

/-- Model of Python `str.strip()` on the character list of a string. -/
def pyStrip (l : List Char) : List Char :=
  ((l.dropWhile isPySpace).reverse.dropWhile isPySpace).reverse

/-- Model of Python `str.upper()` on a single character (ASCII case). -/
def upChar (c : Char) : Char := c.toUpper

/-- Code-point comparison of two character lists, as Python compares `str`
values (lexicographically by code point).  Returns `true` when `x <= y`. -/
def pyStrLeChars : List Char → List Char → Bool
  | [], _ => true
  | _ :: _, [] => false
  | a :: as, b :: bs => if a = b then pyStrLeChars as bs else decide (a < b)

/-- The `<=` order Python's `sorted` uses on strings. -/
def pyLe (a b : String) : Prop := pyStrLeChars a.data b.data = true

instance : DecidableRel pyLe := fun a b => by unfold pyLe; infer_instance

theorem pyStrLeChars_total : ∀ x y : List Char,
    pyStrLeChars x y = true ∨ pyStrLeChars y x = true := by
  intro x
  induction x with
  | nil => intro y; left; rfl
  | cons a as ih =>
    intro y
    cases y with
    | nil => right; rfl
    | cons b bs =>
      by_cases hab : a = b
      · subst hab
        rcases ih bs with h | h
        · left; simpa [pyStrLeChars] using h
        · right; simpa [pyStrLeChars] using h
      · rcases lt_or_gt_of_ne hab with h | h
        · left; simp [pyStrLeChars, hab, h]
        · right
          have hba : b ≠ a := fun e => hab e.symm
          simp [pyStrLeChars, hba, h]

theorem pyStrLeChars_trans : ∀ x y z : List Char,
    pyStrLeChars x y = true → pyStrLeChars y z = true →
    pyStrLeChars x z = true := by
  intro x
  induction x with
  | nil => intro y z _ _; rfl
  | cons a as ih =>
    intro y z hxy hyz
    cases y with
    | nil => simp [pyStrLeChars] at hxy
    | cons b bs =>
      cases z with
      | nil => simp [pyStrLeChars] at hyz
      | cons c cs =>
        by_cases hab : a = b
        · subst hab
          by_cases hbc : a = c
          · subst hbc
            simp [pyStrLeChars] at hxy hyz ⊢
            exact ih bs cs hxy hyz
          · simp [pyStrLeChars, hbc] at hyz ⊢
            exact hyz
        · by_cases hbc : b = c
          · subst hbc
            simp [pyStrLeChars, hab] at hxy ⊢
            exact hxy
          · simp [pyStrLeChars, hab] at hxy
            simp [pyStrLeChars, hbc] at hyz
            have hac : a < c := lt_trans hxy hyz
            have hne : a ≠ c := ne_of_lt hac
            simp [pyStrLeChars, hne, hac]

theorem pyStrLeChars_antisymm : ∀ x y : List Char,
    pyStrLeChars x y = true → pyStrLeChars y x = true → x = y := by
  intro x
  induction x with
  | nil =>
    intro y _ hyx
    cases y with
    | nil => rfl
    | cons b bs => simp [pyStrLeChars] at hyx
  | cons a as ih =>
    intro y hxy hyx
    cases y with
    | nil => simp [pyStrLeChars] at hxy
    | cons b bs =>
      by_cases hab : a = b
      · subst hab
        simp [pyStrLeChars] at hxy hyx
        exact congrArg (a :: ·) (ih bs hxy hyx)
      · have hba : b ≠ a := fun e => hab e.symm
        simp [pyStrLeChars, hab] at hxy
        simp [pyStrLeChars, hba] at hyx
        exact absurd hxy (not_lt_of_gt hyx)

theorem stringData_inj {a b : String} (h : a.data = b.data) : a = b := by
  cases a; cases b; exact congrArg String.mk h

instance : IsTotal String pyLe := ⟨fun a b => pyStrLeChars_total a.data b.data⟩

instance : IsTrans String pyLe :=
  ⟨fun a b c => pyStrLeChars_trans a.data b.data c.data⟩

instance : IsAntisymm String pyLe :=
  ⟨fun a b h1 h2 => stringData_inj (pyStrLeChars_antisymm a.data b.data h1 h2)⟩

/-- Model of Python's `sorted` on a list of strings: the stable sort of the
list under the code-point order. -/
def pySorted (l : List String) : List String := List.insertionSort pyLe l

theorem pySorted_perm (l : List String) : (pySorted l).Perm l :=
  List.perm_insertionSort pyLe l

theorem pySorted_eq_of_perm {l l' : List String} (h : l.Perm l') :
    pySorted l = pySorted l' :=
  List.eq_of_perm_of_sorted
    (((pySorted_perm l).trans h).trans (pySorted_perm l').symm)
    (List.sorted_insertionSort pyLe l)
    (List.sorted_insertionSort pyLe l')

/-! ### `src/ai/utils.py`: `generate_post_hash` and `find_new_posts` -/

/-- A scraped Facebook post, as the dictionaries in the `posts` list of a
scrape result carry it: a `text`, a list of image links and a timestamp
(`None` models a missing key or a `None` value). -/
structure Post where
  text : Option String
  img_links : List String
  timestamp : Option String
deriving DecidableEq, Repr

/-- Python `'|'.join(...)`. -/
def joinPipe : List String → String
  | [] => ""
  | [s] => s
  | s :: t :: rest => s ++ "|" ++ joinPipe (t :: rest)

/-- The canonical string `generate_post_hash` feeds to SHA-256:
`f"text:{text_content}|||images:{'|'.join(img_links)}"` where
`text_content = post.get("text", "") or ""` and
`img_links = sorted(post.get("img_links", []))`. -/
def canonicalContent (p : Post) : String :=
  "text:" ++ (p.text.getD "") ++ "|||images:" ++ joinPipe (pySorted p.img_links)

/-- `generate_post_hash` with SHA-256 modelled as an injective function:
the digest is identified with the canonical string it hashes, so two digests
are equal exactly when the canonical strings are. -/
def generate_post_hash (p : Post) : String := canonicalContent p

/-- One item of a Python `posts` list: either a post dictionary or a value
that is not a dictionary (skipped with a warning by `find_new_posts`). -/
inductive PostsItem where
  | post (p : Post)
  | invalid
deriving DecidableEq

/-- The `posts` entry of a scrape-result dictionary: missing (`.get`
defaults to `[]`), present but not a list, or an actual list of items. -/
inductive PostsField where
  | absent
  | notList
  | list (items : List PostsItem)
deriving DecidableEq

/-- A value passed to `find_new_posts`: either not a dictionary at all, or a
dictionary whose `posts` entry is described by a `PostsField`. -/
inductive ScrapeData where
  | notDict
  | dict (posts : PostsField)
deriving DecidableEq

def PostsItem.asPost : PostsItem → Option Post
  | .post p => some p
  | .invalid => none

def PostsField.getPosts : PostsField → Option (List PostsItem)
  | .absent => some []
  | .notList => none
  | .list items => some items

/-- `find_new_posts(old_data, new_data)`: `none` models the `return None`
taken when either input is not a dictionary or its `posts` entry is not a
list; otherwise the posts of `new_data` whose hash is not among the hashes
of the posts of `old_data`, in order (the Python code appends
`copy.deepcopy(post)`, which is the identity in this value model).
Non-dictionary items of either list are skipped with a warning. -/
def find_new_posts : ScrapeData → ScrapeData → Option (List Post)
  | .notDict, _ => none
  | .dict _, .notDict => none
  | .dict oldField, .dict newField =>
    match oldField.getPosts, newField.getPosts with
    | some oldItems, some newItems =>
      let oldHashes := (oldItems.filterMap PostsItem.asPost).map generate_post_hash
      some ((newItems.filterMap PostsItem.asPost).filter
        (fun p => generate_post_hash p ∉ oldHashes))
    | _, _ => none

/-! ### Injectivity of the canonical fingerprint encoding

The canonical string is `"text:" ++ t ++ "|||images:" ++ j` where `j` joins
the sorted links with single pipes.  When neither the text nor any link
contains a pipe character and no link is empty, the encoding is injective:
the run of three pipes occurs exactly once, splitting text from links, and
`j` determines the sorted link list. -/

/-- The text of a post as `generate_post_hash` reads it:
`post.get("text", "") or ""`. -/
def postText (p : Post) : String := p.text.getD ""

/-- A string free of the pipe separator character. -/
def pipeFree (s : String) : Prop := '|' ∉ s.data

instance (s : String) : Decidable (pipeFree s) := by unfold pipeFree; infer_instance

/-- Two pipe-terminated extensions of pipe-free character lists agree only
when their pipe-free parts agree. -/
theorem eq_of_pipeSplit : ∀ (t1 t2 r1 r2 : List Char), '|' ∉ t1 → '|' ∉ t2 →
    t1 ++ '|' :: r1 = t2 ++ '|' :: r2 → t1 = t2 ∧ r1 = r2 := by
  intro t1
  induction t1 with
  | nil =>
    intro t2 r1 r2 _ h2 h
    cases t2 with
    | nil =>
      simp only [List.nil_append] at h
      injection h with _ h
      exact ⟨rfl, h⟩
    | cons b t2' =>
      simp only [List.nil_append, List.cons_append] at h
      injection h with hb _
      exact absurd (hb ▸ List.mem_cons_self b t2') (hb ▸ h2)
  | cons a t1' ih =>
    intro t2 r1 r2 h1 h2 h
    cases t2 with
    | nil =>
      simp only [List.cons_append, List.nil_append] at h
      injection h with hb _
      exact absurd (hb ▸ List.mem_cons_self a t1') (hb ▸ h1)
    | cons b t2' =>
      simp only [List.cons_append] at h
      injection h with hb h
      subst hb
      have h1' : '|' ∉ t1' := fun m => h1 (List.mem_cons_of_mem a m)
      have h2' : '|' ∉ t2' := fun m => h2 (List.mem_cons_of_mem a m)
      obtain ⟨e1, e2⟩ := ih t2' r1 r2 h1' h2' h
      exact ⟨by rw [e1], e2⟩

/-- Character-level core of `joinPipe`. -/
def charJoin : List (List Char) → List Char
  | [] => []
  | [x] => x
  | x :: y :: rest => x ++ '|' :: charJoin (y :: rest)

theorem joinPipe_data : ∀ L : List String,
    (joinPipe L).data = charJoin (L.map String.data) := by
  intro L
  match L with
  | [] => rfl
  | [s] => rfl
  | s :: t :: rest =>
    show (s ++ "|" ++ joinPipe (t :: rest)).data = _
    rw [String.data_append, String.data_append, joinPipe_data (t :: rest),
      show ("|" : String).data = ['|'] from rfl]
    simp [charJoin]

theorem charJoin_inj : ∀ L1 L2 : List (List Char),
    (∀ x ∈ L1, x ≠ [] ∧ '|' ∉ x) → (∀ x ∈ L2, x ≠ [] ∧ '|' ∉ x) →
    charJoin L1 = charJoin L2 → L1 = L2 := by
  intro L1
  induction L1 with
  | nil =>
    intro L2 _ h2 h
    cases L2 with
    | nil => rfl
    | cons y L2' =>
      cases L2' with
      | nil => exact absurd h.symm (h2 y (List.mem_cons_self y _)).1
      | cons z L2'' =>
        simp only [charJoin] at h
        have hlen := congrArg List.length h
        simp only [List.length_nil, List.length_append, List.length_cons] at hlen
        omega
  | cons x L1' ih =>
    intro L2 h1 h2 h
    cases L2 with
    | nil =>
      cases L1' with
      | nil => exact absurd h (h1 x (List.mem_cons_self x _)).1
      | cons z L1'' =>
        simp only [charJoin] at h
        have hlen := congrArg List.length h
        simp only [List.length_nil, List.length_append, List.length_cons] at hlen
        omega
    | cons y L2' =>
      cases L1' with
      | nil =>
        cases L2' with
        | nil => simpa only [charJoin, List.cons.injEq, and_true] using h
        | cons w L2'' =>
          simp only [charJoin] at h
          have : '|' ∈ x := h ▸ (by simp : '|' ∈ y ++ '|' :: charJoin (w :: L2''))
          exact absurd this (h1 x (List.mem_cons_self x _)).2
      | cons z L1'' =>
        cases L2' with
        | nil =>
          simp only [charJoin] at h
          have : '|' ∈ y :=
            h ▸ (by simp : '|' ∈ x ++ '|' :: charJoin (z :: L1''))
          exact absurd this (h2 y (List.mem_cons_self y _)).2
        | cons w L2'' =>
          simp only [charJoin] at h
          obtain ⟨e1, e2⟩ := eq_of_pipeSplit x y _ _
            (h1 x (List.mem_cons_self x _)).2 (h2 y (List.mem_cons_self y _)).2 h
          have := ih (w :: L2'')
            (fun u hu => h1 u (List.mem_cons_of_mem x hu))
            (fun u hu => h2 u (List.mem_cons_of_mem y hu)) e2
          rw [e1, this]

theorem joinPipe_inj {L1 L2 : List String}
    (h1 : ∀ s ∈ L1, s ≠ "" ∧ pipeFree s) (h2 : ∀ s ∈ L2, s ≠ "" ∧ pipeFree s)
    (h : joinPipe L1 = joinPipe L2) : L1 = L2 := by
  have hd : charJoin (L1.map String.data) = charJoin (L2.map String.data) := by
    rw [← joinPipe_data, ← joinPipe_data, h]
  have key := charJoin_inj (L1.map String.data) (L2.map String.data)
    (by
      intro x hx
      obtain ⟨s, hs, rfl⟩ := List.mem_map.mp hx
      refine ⟨fun e => (h1 s hs).1 (stringData_inj ?_), (h1 s hs).2⟩
      rw [e])
    (by
      intro x hx
      obtain ⟨s, hs, rfl⟩ := List.mem_map.mp hx
      refine ⟨fun e => (h2 s hs).1 (stringData_inj ?_), (h2 s hs).2⟩
      rw [e])
    hd
  exact List.map_injective_iff.mpr (fun a b e => stringData_inj e) key

/-- Injectivity of the canonical encoding on pipe-free posts: equal
fingerprints force equal texts and equal image-link sets. -/
theorem canonical_inj {p1 p2 : Post}
    (ht1 : pipeFree (postText p1)) (ht2 : pipeFree (postText p2))
    (hl1 : ∀ s ∈ p1.img_links, s ≠ "" ∧ pipeFree s)
    (hl2 : ∀ s ∈ p2.img_links, s ≠ "" ∧ pipeFree s)
    (h : generate_post_hash p1 = generate_post_hash p2) :
    postText p1 = postText p2 ∧ p1.img_links.toFinset = p2.img_links.toFinset := by
  have hdata := congrArg String.data h
  simp only [generate_post_hash, canonicalContent, String.data_append,
    List.append_assoc, List.cons_append, List.cons.injEq, true_and] at hdata
  obtain ⟨et, erest⟩ := eq_of_pipeSplit _ _ _ _ ht1 ht2 hdata
  simp only [List.cons.injEq, true_and] at erest
  have ej : (joinPipe (pySorted p1.img_links)).data =
      (joinPipe (pySorted p2.img_links)).data := erest
  have hs1 : ∀ s ∈ pySorted p1.img_links, s ≠ "" ∧ pipeFree s := fun s hs =>
    hl1 s ((pySorted_perm p1.img_links).mem_iff.mp hs)
  have hs2 : ∀ s ∈ pySorted p2.img_links, s ≠ "" ∧ pipeFree s := fun s hs =>
    hl2 s ((pySorted_perm p2.img_links).mem_iff.mp hs)
  have esort := joinPipe_inj hs1 hs2 (stringData_inj ej)
  have eperm : p1.img_links.Perm p2.img_links :=
    ((pySorted_perm p1.img_links).symm.trans (esort ▸ pySorted_perm p2.img_links))
  exact ⟨stringData_inj et, List.toFinset_eq_of_perm _ _ eperm⟩

/-! ### Dates and times

`admin.py` parses the free-form AI date/time strings with
`dateutil.parser.parse`, combines them with `datetime.combine`, serializes
with `datetime.isoformat()` and re-reads stored values with
`dateutil.parser.isoparse`.  The datetime values themselves are plain
records of numeric fields here. -/

/-- A calendar date as `datetime.date` carries it. -/
structure PDate where
  year : Nat
  month : Nat
  day : Nat
deriving DecidableEq, Repr

/-- A time of day as `datetime.time` carries it (seconds always zero in
this flow). -/
structure PTime where
  hour : Nat
  minute : Nat
deriving DecidableEq, Repr

/-- A `datetime.datetime`, i.e. `datetime.combine(date, time)`. -/
structure PDateTime where
  date : PDate
  time : PTime
deriving DecidableEq, Repr

/-- The character `0`–`9` for a digit (the argument is reduced mod 10). -/
def digitChar (n : Nat) : Char :=
  match n % 10 with
  | 0 => '0' | 1 => '1' | 2 => '2' | 3 => '3' | 4 => '4'
  | 5 => '5' | 6 => '6' | 7 => '7' | 8 => '8' | _ => '9'

/-- The numeric value of a digit character (9 on junk; callers guard with
`Char.isDigit`). -/
def digitVal (c : Char) : Nat :=
  match c with
  | '0' => 0 | '1' => 1 | '2' => 2 | '3' => 3 | '4' => 4
  | '5' => 5 | '6' => 6 | '7' => 7 | '8' => 8 | _ => 9

def val2 (a b : Char) : Nat := 10 * digitVal a + digitVal b

def val4 (a b c d : Char) : Nat :=
  1000 * digitVal a + 100 * digitVal b + 10 * digitVal c + digitVal d

/-- Two-digit zero-padded decimal rendering. -/
def pad2 (n : Nat) : List Char := [digitChar (n / 10), digitChar n]

/-- Four-digit zero-padded decimal rendering. -/
def pad4 (n : Nat) : List Char :=
  [digitChar (n / 1000), digitChar (n / 100), digitChar (n / 10), digitChar n]

theorem digitVal_digitChar (n : Nat) : digitVal (digitChar n) = n % 10 := by
  have : n % 10 = 0 ∨ n % 10 = 1 ∨ n % 10 = 2 ∨ n % 10 = 3 ∨ n % 10 = 4 ∨
      n % 10 = 5 ∨ n % 10 = 6 ∨ n % 10 = 7 ∨ n % 10 = 8 ∨ n % 10 = 9 := by omega
  rcases this with h | h | h | h | h | h | h | h | h | h <;>
    simp [digitChar, digitVal, h]

theorem isDigit_digitChar (n : Nat) : (digitChar n).isDigit = true := by
  have : n % 10 = 0 ∨ n % 10 = 1 ∨ n % 10 = 2 ∨ n % 10 = 3 ∨ n % 10 = 4 ∨
      n % 10 = 5 ∨ n % 10 = 6 ∨ n % 10 = 7 ∨ n % 10 = 8 ∨ n % 10 = 9 := by omega
  rcases this with h | h | h | h | h | h | h | h | h | h <;>
    simp only [digitChar, h] <;> decide

theorem upChar_digitChar (n : Nat) : upChar (digitChar n) = digitChar n := by
  have : n % 10 = 0 ∨ n % 10 = 1 ∨ n % 10 = 2 ∨ n % 10 = 3 ∨ n % 10 = 4 ∨
      n % 10 = 5 ∨ n % 10 = 6 ∨ n % 10 = 7 ∨ n % 10 = 8 ∨ n % 10 = 9 := by omega
  rcases this with h | h | h | h | h | h | h | h | h | h <;> simp [digitChar, h] <;> decide

theorem noSpace_digitChar (n : Nat) : isPySpace (digitChar n) = false := by
  have : n % 10 = 0 ∨ n % 10 = 1 ∨ n % 10 = 2 ∨ n % 10 = 3 ∨ n % 10 = 4 ∨
      n % 10 = 5 ∨ n % 10 = 6 ∨ n % 10 = 7 ∨ n % 10 = 8 ∨ n % 10 = 9 := by omega
  rcases this with h | h | h | h | h | h | h | h | h | h <;> simp [digitChar, h] <;> decide

theorem digitVal_le (c : Char) : digitVal c ≤ 9 := by
  unfold digitVal; split <;> omega

theorem val2_pad2 (n : Nat) (h : n < 100) :
    val2 (digitChar (n / 10)) (digitChar n) = n := by
  simp only [val2, digitVal_digitChar]
  omega

theorem val4_pad4 (n : Nat) (h : n < 10000) :
    val4 (digitChar (n / 1000)) (digitChar (n / 100)) (digitChar (n / 10))
      (digitChar n) = n := by
  simp only [val4, digitVal_digitChar]
  omega

/-! ### `clean_time_string` (`src/routers/admin.py` and
`src/utils/admin_utils.py`) -/

/-- The compact `HHMMH` test of `clean_time_string`:
`len(time_str) == 5 and time_str.endswith("H") and time_str[:4].isdigit()`. -/
def isCompactTime (t : List Char) : Bool :=
  t.length == 5 && (t.getLast? == some 'H') && (t.take 4).all Char.isDigit

/-- Body of `clean_time_string` on the character list after
`str(time_str).strip().upper()`: if the compact `HHMMH` form matches, format
as `HH:MM` (`f"{time_str[:2]}:{time_str[2:4]}"`), otherwise return the
(normalized) string. -/
def cleanTimeChars (l : List Char) : List Char :=
  let t := (pyStrip l).map upChar
  if isCompactTime t then t.take 2 ++ ':' :: (t.drop 2).take 2 else t

/-- `clean_time_string` of `admin.py` (the `admin_utils.py` copy only adds a
`None` guard before the same computation). -/
def clean_time_string (s : String) : String := String.mk (cleanTimeChars s.data)

/-! ### Models of the external `dateutil` parsing functions -/

theorem data_mk (l : List Char) : (String.mk l).data = l := rfl

/-- Core of `parseDate` on a character list. -/
def parseDateChars : List Char → Option PDate
  | [y1, y2, y3, y4, c1, m1, m2, c2, d1, d2] =>
    if y1.isDigit ∧ y2.isDigit ∧ y3.isDigit ∧ y4.isDigit ∧ c1 = '-' ∧
        m1.isDigit ∧ m2.isDigit ∧ c2 = '-' ∧ d1.isDigit ∧ d2.isDigit then
      if 1 ≤ val2 m1 m2 ∧ val2 m1 m2 ≤ 12 ∧ 1 ≤ val2 d1 d2 ∧ val2 d1 d2 ≤ 31 then
        some ⟨val4 y1 y2 y3 y4, val2 m1 m2, val2 d1 d2⟩
      else none
    else none
  | _ => none

/-- Modelled from the spec: `dateutil.parser.parse(raw_date).date()` is an
external library call (§1 treats parsing collaborators as external).  The
spec's scenarios feed it ISO dates (`date: "2025-06-05"`), so the model
accepts exactly `YYYY-MM-DD` digit strings with a plausible month and day
and rejects (raises, i.e. `none`) anything else. -/
def parseDate (s : String) : Option PDate := parseDateChars s.data

/-- Core of `parseTime` on a character list. -/
def parseTimeChars : List Char → Option PTime
  | [h1, h2, c, m1, m2] =>
    if h1.isDigit ∧ h2.isDigit ∧ c = ':' ∧ m1.isDigit ∧ m2.isDigit then
      if val2 h1 h2 ≤ 23 ∧ val2 m1 m2 ≤ 59 then
        some ⟨val2 h1 h2, val2 m1 m2⟩
      else none
    else none
  | _ => none

/-- Modelled from the spec: `dateutil.parser.parse(cleaned).time()` is an
external library call; after `clean_time_string` normalization the spec's
time strings are `HH:MM` (§8: `"2000H"` parses to `20:00`), so the model
accepts exactly `HH:MM` digit strings with a valid hour and minute. -/
def parseTime (s : String) : Option PTime := parseTimeChars s.data

/-- `date.isoformat()`: `YYYY-MM-DD`. -/
def PDate.isoformatChars (d : PDate) : List Char :=
  pad4 d.year ++ '-' :: pad2 d.month ++ '-' :: pad2 d.day

def PDate.isoformat (d : PDate) : String := String.mk d.isoformatChars

/-- `datetime.isoformat()` for a zero-second datetime:
`YYYY-MM-DDTHH:MM:SS`. -/
def PDateTime.isoformat (dt : PDateTime) : String :=
  String.mk (dt.date.isoformatChars ++
    'T' :: pad2 dt.time.hour ++ ':' :: pad2 dt.time.minute ++ [':', '0', '0'])

/-- Core of `isoparse` on a character list. -/
def isoparseChars : List Char → Option PDateTime
  | [y1, y2, y3, y4, a1, m1, m2, a2, d1, d2, t, h1, h2, b1, n1, n2, b2, s1, s2] =>
    if y1.isDigit ∧ y2.isDigit ∧ y3.isDigit ∧ y4.isDigit ∧ m1.isDigit ∧
        m2.isDigit ∧ d1.isDigit ∧ d2.isDigit ∧ h1.isDigit ∧ h2.isDigit ∧
        n1.isDigit ∧ n2.isDigit ∧ s1.isDigit ∧ s2.isDigit ∧
        a1 = '-' ∧ a2 = '-' ∧ t = 'T' ∧ b1 = ':' ∧ b2 = ':' then
      some ⟨⟨val4 y1 y2 y3 y4, val2 m1 m2, val2 d1 d2⟩,
        ⟨val2 h1 h2, val2 n1 n2⟩⟩
    else none
  | _ => none

/-- Modelled from the spec: `dateutil.parser.isoparse` is an external
library call reading back the ISO strings `datetime.isoformat()` stored;
the model accepts exactly the `YYYY-MM-DDTHH:MM:SS` shape and raises
(`none`) on anything else. -/
def isoparse (s : String) : Option PDateTime := isoparseChars s.data

theorem isoparse_isoformat (dt : PDateTime)
    (hy : dt.date.year < 10000) (hmo : dt.date.month < 100)
    (hd : dt.date.day < 100) (hh : dt.time.hour < 100)
    (hmi : dt.time.minute < 100) :
    isoparse dt.isoformat = some dt := by
  obtain ⟨⟨y, mo, d⟩, h, mi⟩ := dt
  simp only [PDateTime.isoformat, PDate.isoformatChars, pad4, pad2,
    List.cons_append, List.nil_append] at *
  simp only [isoparse, data_mk, isoparseChars, isDigit_digitChar, and_true,
    true_and, and_self, if_true]
  simp only [val4_pad4 y hy, val2_pad2 mo hmo, val2_pad2 d hd,
    val2_pad2 h hh, val2_pad2 mi hmi]
  simp only [show ('0').isDigit = true from by decide, if_true]

theorem isoformat_ne_empty (dt : PDateTime) : dt.isoformat ≠ "" := by
  obtain ⟨⟨y, mo, d⟩, h, mi⟩ := dt
  intro h
  have h2 := congrArg String.data h
  simp only [PDateTime.isoformat, PDate.isoformatChars, pad4, pad2,
    List.cons_append, List.nil_append, data_mk] at h2
  exact absurd h2 (by simp [show ("" : String).data = [] from rfl])

theorem parseDate_bounds {s : String} {pd : PDate} (h : parseDate s = some pd) :
    pd.year < 10000 ∧ 0 < pd.month ∧ pd.month < 100 ∧ 0 < pd.day ∧
      pd.day < 100 := by
  unfold parseDate parseDateChars at h
  split at h
  case _ y1 y2 y3 y4 c1 m1 m2 c2 d1 d2 heq =>
    split at h
    · split at h
      case isTrue hr =>
        injection h with h
        subst h
        have q1 := digitVal_le y1
        have q2 := digitVal_le y2
        have q3 := digitVal_le y3
        have q4 := digitVal_le y4
        simp only [val4, val2] at *
        omega
      case isFalse => exact absurd h (by simp)
    · exact absurd h (by simp)
  case _ => exact absurd h (by simp)

theorem parseTime_bounds {s : String} {pt : PTime} (h : parseTime s = some pt) :
    pt.hour < 100 ∧ pt.minute < 100 := by
  unfold parseTime parseTimeChars at h
  split at h
  case _ h1 h2 c m1 m2 heq =>
    split at h
    · split at h
      case isTrue hr =>
        injection h with h
        subst h
        simp only [val2] at *
        omega
      case isFalse => exact absurd h (by simp)
    · exact absurd h (by simp)
  case _ => exact absurd h (by simp)

/-- Cleaning a compact `HHMMH` string built from a two-digit hour and
two-digit minute and then parsing it yields exactly that hour and minute. -/
theorem clean_parse_compact (h m : Nat) (hh : h ≤ 23) (hm : m ≤ 59) :
    parseTime (clean_time_string (String.mk (pad2 h ++ pad2 m ++ ['H']))) =
      some ⟨h, m⟩ := by
  have hsp : isPySpace 'H' = false := by decide
  have hup : upChar 'H' = 'H' := by decide
  simp only [pad2, List.cons_append, List.nil_append]
  simp only [clean_time_string, data_mk, cleanTimeChars]
  rw [show pyStrip [digitChar (h / 10), digitChar h, digitChar (m / 10),
      digitChar m, 'H'] =
      [digitChar (h / 10), digitChar h, digitChar (m / 10), digitChar m, 'H']
    from by simp [pyStrip, List.dropWhile_cons, noSpace_digitChar, hsp]]
  simp only [List.map, upChar_digitChar, hup]
  rw [show isCompactTime [digitChar (h / 10), digitChar h, digitChar (m / 10),
      digitChar m, 'H'] = true
    from by simp [isCompactTime, isDigit_digitChar]]
  simp only [if_true, List.take, List.drop, List.cons_append, List.nil_append]
  simp only [parseTime, data_mk, parseTimeChars, isDigit_digitChar]
  rw [if_pos (by simp [isDigit_digitChar])]
  rw [val2_pad2 h (by omega), val2_pad2 m (by omega)]
  rw [if_pos ⟨hh, hm⟩]

/-- The shared date/time parsing step of the admin endpoint and of
`process_and_create_interruption_record`: check the three raw fields are
present and truthy, clean both time strings, parse, and combine both times
onto the parsed date (`datetime.combine`).  Returns `target_date_str` and
the combined start/end datetimes; `none` models the parse-error path
(`HTTP 422`). -/
def parseDateStartEnd (rawDate rawStart rawEnd : Option String) :
    Option (String × PDateTime × PDateTime) :=
  match rawDate, rawStart, rawEnd with
  | some d, some s, some e =>
    if d = "" ∨ s = "" ∨ e = "" then none
    else
      match parseDate d, parseTime (clean_time_string s),
          parseTime (clean_time_string e) with
      | some pd, some ps, some pe => some (pd.isoformat, ⟨pd, ps⟩, ⟨pd, pe⟩)
      | _, _, _ => none
  | _, _, _ => none

/-- Any datetime produced by the parse step round-trips through
`isoformat`/`isoparse`. -/
theorem parseDateStartEnd_roundtrip {rd rs re : Option String}
    {td : String} {fs fe : PDateTime}
    (h : parseDateStartEnd rd rs re = some (td, fs, fe)) :
    isoparse fs.isoformat = some fs ∧ isoparse fe.isoformat = some fe := by
  unfold parseDateStartEnd at h
  split at h
  case _ d s e =>
    split at h
    · exact absurd h (by simp)
    · split at h
      case _ pd ps pe hpd hps hpe =>
        injection h with h
        injection h with h1 h
        injection h with h2 h3
        subst h1 h2 h3
        obtain ⟨b1, b2, b3, b4, b5⟩ := parseDate_bounds hpd
        obtain ⟨c1, c2⟩ := parseTime_bounds hps
        obtain ⟨e1, e2⟩ := parseTime_bounds hpe
        exact ⟨isoparse_isoformat ⟨pd, ps⟩ b1 b3 b5 c1 c2,
          isoparse_isoformat ⟨pd, pe⟩ b1 b3 b5 e1 e2⟩
      case _ => exact absurd h (by simp)
  case _ => exact absurd h (by simp)

/-! ### The Supabase store

Each table is a list of rows in insertion order; an insert appends a row
with a fresh identifier drawn from a store-wide counter (Supabase assigns
serial identifiers starting at 1). -/

/-- A row of one of the simple named-entity tables (`affected_areas`,
`affected_customers`, `specific_activities`, `personnel`): an identifier
plus the attribute columns. -/
structure EntityRow where
  id : Nat
  attrs : List (String × String)
deriving DecidableEq, Repr

/-- A row of `power_interruption_data`.  The server-assigned
`date_created` wall-clock timestamp is omitted: it is never read by the
reconciliation logic. -/
structure MainRow where
  id : Nat
  isRelated : Bool
  reason : Option String
  date : String
  start_time : Option String
  end_time : Option String
  affectedLine : Option String
  noticeId : Option Nat
deriving DecidableEq, Repr

/-- A row of `power_interruption_notices`. -/
structure NoticeRow where
  id : Nat
  control_no : String
  date_issued : String
deriving DecidableEq, Repr

/-- A row of `barangays` (name scoped to an owning area). -/
structure BarangayRow where
  id : Nat
  name : String
  areaId : Nat
deriving DecidableEq, Repr

/-- A row of one of the association tables. -/
structure Link where
  leftId : Nat
  rightId : Nat
deriving DecidableEq, Repr

structure Store where
  nextId : Nat
  mainRecords : List MainRow
  notices : List NoticeRow
  areas : List EntityRow
  barangays : List BarangayRow
  customers : List EntityRow
  activities : List EntityRow
  personnel : List EntityRow
  dataAreas : List Link
  dataCustomers : List Link
  dataActivities : List Link
  noticePersonnel : List Link
  noticeCustomers : List Link
  noticeActivities : List Link
deriving DecidableEq, Repr

/-- The empty store (serial identifiers start at 1). -/
def Store.empty : Store := ⟨1, [], [], [], [], [], [], [], [], [], [], [], [], []⟩

/-- Column lookup in an entity row (`None` models a missing column/value). -/
def lookupAttr (r : EntityRow) (k : String) : Option String :=
  (r.attrs.find? (fun kv => kv.1 == k)).map (fun kv => kv.2)

/-- `item_data.get(col)`. -/
def assocLookup (l : List (String × String)) (k : String) : Option String :=
  (l.find? (fun kv => kv.1 == k)).map (fun kv => kv.2)

/-- The `.eq(col, value)` conjunction of `get_or_create_related_item`: the
row matches when every match column holds exactly the item's value. -/
def rowMatchesKeys (item : List (String × String)) (keys : List String)
    (r : EntityRow) : Bool :=
  keys.all (fun k => lookupAttr r k == assocLookup item k)

/-- `get_or_create_related_item` (`src/routers/admin.py`, also duplicated in
`src/utils/admin_utils.py`): on a table with its fresh-id counter, return
`None` when a match column has no value; otherwise return the first
matching row's id, inserting a new row from the item when none matches.
Result: (returned id, updated table, updated counter). -/
def get_or_create_related_item (tbl : List EntityRow) (nextId : Nat)
    (item : List (String × String)) (keys : List String) :
    Option Nat × List EntityRow × Nat :=
  if keys.all (fun k => (assocLookup item k).isSome) then
    match tbl.find? (rowMatchesKeys item keys) with
    | some r => (some r.id, tbl, nextId)
    | none => (some nextId, tbl ++ [⟨nextId, item⟩], nextId + 1)
  else (none, tbl, nextId)

/-! ### The AI-extracted record (`structured_response.model_dump()`) -/

structure AreaInput where
  name : Option String
  barangays : List String
deriving DecidableEq, Repr

structure PersonInput where
  name : Option String
  position : Option String
deriving DecidableEq, Repr

structure NoticeInput where
  control_no : Option String
  date_issued : Option String
  personnel : List PersonInput
  affected_customers : List String
  specific_activities : List String
deriving DecidableEq, Repr

structure ExtractedData where
  is_power_interruption_related : Bool
  reason : Option String
  date : Option String
  start_time : Option String
  end_time : Option String
  affected_line : Option String
  affected_areas : List AreaInput
  affected_customers : List String
  specific_activities : List String
  notices : List NoticeInput
deriving DecidableEq, Repr

/-! ### The admin endpoint (`src/routers/admin.py`) -/

/-- Evaluation of `parser.isoparse(v) if v else None` for one stored field:
`some x` is normal completion with value `x`, `none` is a raised
`ValueError`. -/
def parseTruthy (x : Option String) : Option (Option PDateTime) :=
  match x with
  | none => some none
  | some s =>
    if s = "" then some none
    else match isoparse s with
      | some a => some (some a)
      | none => none

/-- The `(existing_start, existing_end)` pair of the duplicate check; a
`ValueError` from either parse resets both to `None` (the shared `except`
clause). -/
def storedTimes (st en : Option String) : Option PDateTime × Option PDateTime :=
  match parseTruthy st with
  | none => (none, none)
  | some a =>
    match parseTruthy en with
    | none => (none, none)
    | some b => (a, b)

def findById (tbl : List EntityRow) (i : Nat) : Option EntityRow :=
  tbl.find? (fun r => r.id == i)

/-- The set of area names joined onto an existing record
(`affected_areas(name)` through `data_areas`), with falsy names dropped:
`{area.get("name") for area in existing_areas_raw if area.get("name")}`. -/
def recordAreaNames (s : Store) (rid : Nat) : Finset String :=
  (((s.dataAreas.filter (fun l => l.leftId == rid)).filterMap
      (fun l => (findById s.areas l.rightId).bind (fun a => lookupAttr a "name"))).filter
    (fun n => n != "")).toFinset

/-- `{area.get("name") for area in new_areas_raw if area.get("name")}`. -/
def newAreasSet (d : ExtractedData) : Finset String :=
  ((d.affected_areas.filterMap (fun a => a.name)).filter (fun n => n != "")).toFinset

/-- `times_match and areas_match` for one existing same-date record. -/
def recordMatches (s : Store) (fs fe : PDateTime) (names : Finset String)
    (r : MainRow) : Bool :=
  decide (storedTimes r.start_time r.end_time = (some fs, some fe)) &&
    decide (recordAreaNames s r.id = names)

/-- Notice personnel loop: get-or-create on `personnel` matched on
name+position, then link in `notice_personnel` (skipping falsy fields). -/
def noticePersonnelLoop (nid : Nat) : List PersonInput → Store → Store
  | [], s => s
  | p :: rest, s =>
    noticePersonnelLoop nid rest
      (match p.name, p.position with
      | some n, some pos =>
        if n = "" ∨ pos = "" then s
        else
          let r := get_or_create_related_item s.personnel s.nextId
            [("name", n), ("position", pos)] ["name", "position"]
          let s' := { s with personnel := r.2.1, nextId := r.2.2 }
          match r.1 with
          | some pid =>
            if pid ≠ 0 then
              { s' with noticePersonnel := s'.noticePersonnel ++ [⟨nid, pid⟩] }
            else s'
          | none => s'
      | _, _ => s)

/-- Notice customers loop: get-or-create on `affected_customers`, link in
`notice_customers`. -/
def noticeCustomersLoop (nid : Nat) : List String → Store → Store
  | [], s => s
  | cn :: rest, s =>
    noticeCustomersLoop nid rest
      (if cn = "" then s
      else
        let r := get_or_create_related_item s.customers s.nextId
          [("name", cn)] ["name"]
        let s' := { s with customers := r.2.1, nextId := r.2.2 }
        match r.1 with
        | some cid =>
          if cid ≠ 0 then
            { s' with noticeCustomers := s'.noticeCustomers ++ [⟨nid, cid⟩] }
          else s'
        | none => s')

/-- Notice activities loop: get-or-create on `specific_activities`, link in
`notice_activities`. -/
def noticeActivitiesLoop (nid : Nat) : List String → Store → Store
  | [], s => s
  | an :: rest, s =>
    noticeActivitiesLoop nid rest
      (if an = "" then s
      else
        let r := get_or_create_related_item s.activities s.nextId
          [("name", an)] ["name"]
        let s' := { s with activities := r.2.1, nextId := r.2.2 }
        match r.1 with
        | some aid =>
          if aid ≠ 0 then
            { s' with noticeActivities := s'.noticeActivities ++ [⟨nid, aid⟩] }
          else s'
        | none => s')

/-- Step 5 of the endpoint: process the (first) notice, returning the
notice id (or `None` when absent, incomplete, or its date fails to
parse — that exception is caught and logged). -/
def noticeFlow (d : ExtractedData) (s : Store) : Option Nat × Store :=
  match d.notices with
  | [] => (none, s)
  | nd :: _ =>
    match nd.control_no, nd.date_issued with
    | some cn, some di =>
      if cn = "" ∨ di = "" then (none, s)
      else
        match parseDate di with
        | none => (none, s)
        | some pdi =>
          let nid := s.nextId
          let s1 : Store := { s with
            notices := s.notices ++ [⟨nid, cn, pdi.isoformat⟩],
            nextId := s.nextId + 1 }
          let s2 := noticePersonnelLoop nid nd.personnel s1
          let s3 := noticeCustomersLoop nid nd.affected_customers s2
          let s4 := noticeActivitiesLoop nid nd.specific_activities s3
          (some nid, s4)
    | _, _ => (none, s)

/-- Barangay loop for one area: insert each barangay name that does not
already exist for that area. -/
def barangayLoop (aid : Nat) : List String → Store → Store
  | [], s => s
  | b :: rest, s =>
    barangayLoop aid rest
      (if b = "" then s
      else if (s.barangays.find? (fun r => r.name == b && r.areaId == aid)).isSome
      then s
      else { s with
        barangays := s.barangays ++ [⟨s.nextId, b, aid⟩],
        nextId := s.nextId + 1 })

/-- Step 7: get-or-create each truthy-named area, link it to the record in
`data_areas`, and process its barangays. -/
def areasLoop (rid : Nat) : List AreaInput → Store → Store
  | [], s => s
  | a :: rest, s =>
    areasLoop rid rest
      (match a.name with
      | some n =>
        if n = "" then s
        else
          let r := get_or_create_related_item s.areas s.nextId [("name", n)] ["name"]
          let s' := { s with areas := r.2.1, nextId := r.2.2 }
          match r.1 with
          | some aid =>
            if aid ≠ 0 then
              barangayLoop aid a.barangays
                { s' with dataAreas := s'.dataAreas ++ [⟨rid, aid⟩] }
            else s'
          | none => s'
      | none => s)

/-- Step 8: get-or-create each truthy top-level customer and link it in
`data_customers`. -/
def customersLoop (rid : Nat) : List String → Store → Store
  | [], s => s
  | cn :: rest, s =>
    customersLoop rid rest
      (if cn = "" then s
      else
        let r := get_or_create_related_item s.customers s.nextId
          [("name", cn)] ["name"]
        let s' := { s with customers := r.2.1, nextId := r.2.2 }
        match r.1 with
        | some cid =>
          if cid ≠ 0 then
            { s' with dataCustomers := s'.dataCustomers ++ [⟨rid, cid⟩] }
          else s'
        | none => s')

/-- Step 9: get-or-create each truthy top-level activity and link it in
`data_activities`. -/
def activitiesLoop (rid : Nat) : List String → Store → Store
  | [], s => s
  | an :: rest, s =>
    activitiesLoop rid rest
      (if an = "" then s
      else
        let r := get_or_create_related_item s.activities s.nextId
          [("name", an)] ["name"]
        let s' := { s with activities := r.2.1, nextId := r.2.2 }
        match r.1 with
        | some aid =>
          if aid ≠ 0 then
            { s' with dataActivities := s'.dataActivities ++ [⟨rid, aid⟩] }
          else s'
        | none => s')

/-- The outcome of one call of the admin endpoint. -/
inductive AdminResult where
  | notRelevant (preview : ExtractedData)
  | parseError
  | duplicate (existingId : Nat) (preview : ExtractedData)
  | created (recordId : Nat) (preview : ExtractedData)
deriving DecidableEq, Repr

/-- Steps 5-10: notice, main record insert, then the three link loops (no
persistence call fails in this endpoint model). -/
def createFlow (d : ExtractedData) (targetDate : String) (fs fe : PDateTime)
    (s : Store) : AdminResult × Store :=
  let ns := noticeFlow d s
  let s1 := ns.2
  let rid := s1.nextId
  let row : MainRow :=
    ⟨rid, d.is_power_interruption_related, d.reason, targetDate,
      some fs.isoformat, some fe.isoformat, d.affected_line,
      if ns.1.getD 0 ≠ 0 then ns.1 else none⟩
  let s2 : Store := { s1 with
    mainRecords := s1.mainRecords ++ [row],
    nextId := s1.nextId + 1 }
  let s3 := areasLoop rid d.affected_areas s2
  let s4 := customersLoop rid d.affected_customers s3
  let s5 := activitiesLoop rid d.specific_activities s4
  (.created rid d, s5)

/-- The admin endpoint (`src/routers/admin.py`), from the point where the
AI's structured response is in hand: relevance check, date/time parsing,
duplicate check over same-date records, then creation. -/
def admin (d : ExtractedData) (s : Store) : AdminResult × Store :=
  if !d.is_power_interruption_related then (.notRelevant d, s)
  else
    match parseDateStartEnd d.date d.start_time d.end_time with
    | none => (.parseError, s)
    | some (td, fs, fe) =>
      match (s.mainRecords.filter (fun r => r.date == td)).find?
          (recordMatches s fs fe (newAreasSet d)) with
      | some r => (.duplicate r.id d, s)
      | none => createFlow d td fs fe s

/-! ### `src/utils/admin_utils.py`: `process_and_create_interruption_record`

The extracted core creation function.  Here persistence failures are
modelled: `failOn` lists the table names whose `insert` raises.  Every
related-entity and association insert of this function sits inside a
`try`/`except` (or inside `get_or_create_related_item`'s own catch-all),
so those exceptions are logged and swallowed; only the main-record insert
re-raises as an HTTP error.  In `admin_utils.py` the barangays, customers
and activities of the extracted record are dictionaries with a `name`
entry, modelled as `Option String` (a missing name and a non-dictionary
item are both skipped with a warning). -/

structure AreaInputU where
  name : Option String
  barangays : List (Option String)
deriving DecidableEq, Repr

structure NoticeInputU where
  control_no : Option String
  date_issued : Option String
  personnel : List PersonInput
  affected_customers : List (Option String)
  specific_activities : List (Option String)
deriving DecidableEq, Repr

structure ExtractedDataU where
  is_power_interruption_related : Bool
  reason : Option String
  date : Option String
  start_time : Option String
  end_time : Option String
  affected_line : Option String
  affected_areas : List AreaInputU
  affected_customers : List (Option String)
  specific_activities : List (Option String)
  notices : List NoticeInputU
deriving DecidableEq, Repr

/-- `get_or_create_related_item` against a store whose inserts may raise:
the helper catches every exception itself and returns `None`, so a failed
insert leaves the table unchanged. -/
def get_or_create_failing (failOn : List String) (tblName : String)
    (tbl : List EntityRow) (nextId : Nat) (item : List (String × String))
    (keys : List String) : Option Nat × List EntityRow × Nat :=
  if keys.all (fun k => (assocLookup item k).isSome) then
    match tbl.find? (rowMatchesKeys item keys) with
    | some r => (some r.id, tbl, nextId)
    | none =>
      if tblName ∈ failOn then (none, tbl, nextId)
      else (some nextId, tbl ++ [⟨nextId, item⟩], nextId + 1)
  else (none, tbl, nextId)

/-- Notice personnel loop of `admin_utils.py`.  The `notice_personnel` link
insert is *not* individually wrapped: if it raises, the surrounding notice
`try` aborts the rest of the notice section (the `Bool` is `false`), but
the exception is caught there and processing of the main record goes on. -/
def noticePersonnelLoopU (failOn : List String) (nid : Nat) :
    List PersonInput → Store → Store × Bool
  | [], s => (s, true)
  | p :: rest, s =>
    match p.name, p.position with
    | some n, some pos =>
      if n = "" ∨ pos = "" then noticePersonnelLoopU failOn nid rest s
      else
        let r := get_or_create_failing failOn "personnel" s.personnel s.nextId
          [("name", n), ("position", pos)] ["name", "position"]
        let s' := { s with personnel := r.2.1, nextId := r.2.2 }
        match r.1 with
        | some pid =>
          if pid ≠ 0 then
            if "notice_personnel" ∈ failOn then (s', false)
            else noticePersonnelLoopU failOn nid rest
              { s' with noticePersonnel := s'.noticePersonnel ++ [⟨nid, pid⟩] }
          else noticePersonnelLoopU failOn nid rest s'
        | none => noticePersonnelLoopU failOn nid rest s'
    | _, _ => noticePersonnelLoopU failOn nid rest s

/-- Notice customers loop of `admin_utils.py` (customers are dictionaries
with a `name`). -/
def noticeCustomersLoopU (failOn : List String) (nid : Nat) :
    List (Option String) → Store → Store × Bool
  | [], s => (s, true)
  | c :: rest, s =>
    match c with
    | some cn =>
      if cn = "" then noticeCustomersLoopU failOn nid rest s
      else
        let r := get_or_create_failing failOn "affected_customers" s.customers
          s.nextId [("name", cn)] ["name"]
        let s' := { s with customers := r.2.1, nextId := r.2.2 }
        match r.1 with
        | some cid =>
          if cid ≠ 0 then
            if "notice_customers" ∈ failOn then (s', false)
            else noticeCustomersLoopU failOn nid rest
              { s' with noticeCustomers := s'.noticeCustomers ++ [⟨nid, cid⟩] }
          else noticeCustomersLoopU failOn nid rest s'
        | none => noticeCustomersLoopU failOn nid rest s'
    | none => noticeCustomersLoopU failOn nid rest s

/-- Notice activities loop of `admin_utils.py`. -/
def noticeActivitiesLoopU (failOn : List String) (nid : Nat) :
    List (Option String) → Store → Store × Bool
  | [], s => (s, true)
  | a :: rest, s =>
    match a with
    | some an =>
      if an = "" then noticeActivitiesLoopU failOn nid rest s
      else
        let r := get_or_create_failing failOn "specific_activities" s.activities
          s.nextId [("name", an)] ["name"]
        let s' := { s with activities := r.2.1, nextId := r.2.2 }
        match r.1 with
        | some aid =>
          if aid ≠ 0 then
            if "notice_activities" ∈ failOn then (s', false)
            else noticeActivitiesLoopU failOn nid rest
              { s' with noticeActivities := s'.noticeActivities ++ [⟨nid, aid⟩] }
          else noticeActivitiesLoopU failOn nid rest s'
        | none => noticeActivitiesLoopU failOn nid rest s'
    | none => noticeActivitiesLoopU failOn nid rest s

/-- The notice section of `admin_utils.py`: everything runs inside one
`try` whose `except` logs and continues, so a raise anywhere in it leaves
`notice_id` at whatever value it already has and proceeds. -/
def noticeFlowU (failOn : List String) (d : ExtractedDataU) (s : Store) :
    Option Nat × Store :=
  match d.notices with
  | [] => (none, s)
  | nd :: _ =>
    match nd.control_no, nd.date_issued with
    | some cn, some di =>
      if cn = "" ∨ di = "" then (none, s)
      else
        match parseDate di with
        | none => (none, s)
        | some pdi =>
          if "power_interruption_notices" ∈ failOn then (none, s)
          else
            let nid := s.nextId
            let s1 : Store := { s with
              notices := s.notices ++ [⟨nid, cn, pdi.isoformat⟩],
              nextId := s.nextId + 1 }
            match noticePersonnelLoopU failOn nid nd.personnel s1 with
            | (s2, false) => (some nid, s2)
            | (s2, true) =>
              match noticeCustomersLoopU failOn nid nd.affected_customers s2 with
              | (s3, false) => (some nid, s3)
              | (s3, true) =>
                (some nid,
                  (noticeActivitiesLoopU failOn nid nd.specific_activities s3).1)
    | _, _ => (none, s)

/-- Barangay loop of `admin_utils.py`: each barangay's check-and-insert is
wrapped in its own `try`, so a raised insert skips that barangay only. -/
def barangayLoopU (failOn : List String) (aid : Nat)
    (bs : List (Option String)) (s : Store) : Store :=
  bs.foldl (fun s b =>
    match b with
    | some bn =>
      if bn = "" then s
      else if (s.barangays.find? (fun r => r.name == bn && r.areaId == aid)).isSome
      then s
      else if "barangays" ∈ failOn then s
      else { s with
        barangays := s.barangays ++ [⟨s.nextId, bn, aid⟩],
        nextId := s.nextId + 1 }
    | none => s) s

/-- Area loop of `admin_utils.py`: the `data_areas` link insert is wrapped
in its own `try` (a failure is logged and barangay processing still
runs). -/
def areasLoopU (failOn : List String) (rid : Nat) (las : List AreaInputU)
    (s : Store) : Store :=
  las.foldl (fun s a =>
    match a.name with
    | some n =>
      if n = "" then s
      else
        let r := get_or_create_failing failOn "affected_areas" s.areas s.nextId
          [("name", n)] ["name"]
        let s' := { s with areas := r.2.1, nextId := r.2.2 }
        match r.1 with
        | some aid =>
          if aid ≠ 0 then
            if "data_areas" ∈ failOn then barangayLoopU failOn aid a.barangays s'
            else
              barangayLoopU failOn aid a.barangays
                { s' with dataAreas := s'.dataAreas ++ [⟨rid, aid⟩] }
          else s'
        | none => s'
    | none => s) s

/-- Top-level customers loop of `admin_utils.py` (link insert wrapped in
its own `try`). -/
def customersLoopU (failOn : List String) (rid : Nat)
    (cs : List (Option String)) (s : Store) : Store :=
  cs.foldl (fun s c =>
    match c with
    | some cn =>
      if cn = "" then s
      else
        let r := get_or_create_failing failOn "affected_customers" s.customers
          s.nextId [("name", cn)] ["name"]
        let s' := { s with customers := r.2.1, nextId := r.2.2 }
        match r.1 with
        | some cid =>
          if cid ≠ 0 then
            if "data_customers" ∈ failOn then s'
            else { s' with dataCustomers := s'.dataCustomers ++ [⟨rid, cid⟩] }
          else s'
        | none => s'
    | none => s) s

/-- Top-level activities loop of `admin_utils.py` (link insert wrapped in
its own `try`). -/
def activitiesLoopU (failOn : List String) (rid : Nat)
    (acts : List (Option String)) (s : Store) : Store :=
  acts.foldl (fun s c =>
    match c with
    | some an =>
      if an = "" then s
      else
        let r := get_or_create_failing failOn "specific_activities" s.activities
          s.nextId [("name", an)] ["name"]
        let s' := { s with activities := r.2.1, nextId := r.2.2 }
        match r.1 with
        | some aid =>
          if aid ≠ 0 then
            if "data_activities" ∈ failOn then s'
            else { s' with dataActivities := s'.dataActivities ++ [⟨rid, aid⟩] }
          else s'
        | none => s'
    | none => s) s

/-- HTTP errors `process_and_create_interruption_record` raises:
`unprocessable` is the 422 on parse failure, `serverError` the 5xx when
the main record cannot be persisted. -/
inductive ProcessError where
  | unprocessable
  | serverError
deriving DecidableEq, Repr

/-- `process_and_create_interruption_record` (`src/utils/admin_utils.py`):
parse, notice section, main record insert (fatal on failure), then the
best-effort link loops.  Returns the new main record id and the store. -/
def process_and_create_interruption_record (d : ExtractedDataU)
    (failOn : List String) (s : Store) : Except ProcessError (Nat × Store) :=
  match parseDateStartEnd d.date d.start_time d.end_time with
  | none => .error .unprocessable
  | some (td, fs, fe) =>
    let ns := noticeFlowU failOn d s
    let s1 := ns.2
    if "power_interruption_data" ∈ failOn then .error .serverError
    else
      let rid := s1.nextId
      let row : MainRow :=
        ⟨rid, d.is_power_interruption_related, d.reason, td,
          some fs.isoformat, some fe.isoformat, d.affected_line,
          if ns.1.getD 0 ≠ 0 then ns.1 else none⟩
      let s2 : Store := { s1 with
        mainRecords := s1.mainRecords ++ [row],
        nextId := s1.nextId + 1 }
      let s3 := areasLoopU failOn rid d.affected_areas s2
      let s4 := customersLoopU failOn rid d.affected_customers s3
      let s5 := activitiesLoopU failOn rid d.specific_activities s4
      .ok (rid, s5)

/-! ### Claim theorems -/

/-- **C3**: for every text and every list of image links, the fingerprint
of a post equals the fingerprint of a post with the same text and any
permutation of the links (in particular their reverse), and is independent
of every other field of the post, notably `timestamp`. -/
theorem c3_fingerprint_order_independent (t : Option String)
    (L L' : List String) (ts ts' : Option String) (h : L.Perm L') :
    generate_post_hash ⟨t, L, ts⟩ = generate_post_hash ⟨t, L', ts'⟩ := by
  simp only [generate_post_hash, canonicalContent]
  rw [pySorted_eq_of_perm h]

/-- Witness for C3: a concrete reversal with a changed timestamp. -/
theorem c3_witness :
    (["b", "a"] : List String).Perm (["b", "a"] : List String).reverse ∧
    generate_post_hash ⟨some "t", ["b", "a"], some "1d"⟩ =
      generate_post_hash ⟨some "t", (["b", "a"] : List String).reverse, some "5d"⟩ :=
  ⟨by decide,
    c3_fingerprint_order_independent (some "t") ["b", "a"]
      (["b", "a"] : List String).reverse (some "1d") (some "5d") (by decide)⟩

/-- A well-formed scrape input: a dictionary whose `posts` list holds only
post dictionaries. -/
def postsOnly (ps : List Post) : ScrapeData := .dict (.list (ps.map .post))

/-- **C2**: on well-formed inputs `find_new_posts` returns exactly the
posts of `new` whose fingerprint is absent from the fingerprints of `old`,
in order; a post of `new` agreeing with a post of `old` on text and image
links (differing only in `timestamp`) is never returned; and
`find_new_posts X X` is the empty sequence. -/
theorem c2_find_new_posts_diff (oldPosts newPosts : List Post) :
    (find_new_posts (postsOnly oldPosts) (postsOnly newPosts) =
      some (newPosts.filter
        (fun p => generate_post_hash p ∉ oldPosts.map generate_post_hash))) ∧
    (∀ p ∈ oldPosts, ∀ q ∈ newPosts, q.text = p.text →
      q.img_links = p.img_links →
      ∀ l, find_new_posts (postsOnly oldPosts) (postsOnly newPosts) = some l →
        q ∉ l) ∧
    (find_new_posts (postsOnly oldPosts) (postsOnly oldPosts) = some []) := by
  have key : ∀ ps : List Post,
      (ps.map PostsItem.post).filterMap PostsItem.asPost = ps := by
    intro ps
    rw [List.filterMap_map]
    have e : PostsItem.asPost ∘ PostsItem.post = some := by funext p; rfl
    rw [e, List.filterMap_some]
  refine ⟨?_, ?_, ?_⟩
  · simp only [find_new_posts, postsOnly, PostsField.getPosts, key]
  · intro p hp q hq ht hi l hl
    simp only [find_new_posts, postsOnly, PostsField.getPosts, key,
      Option.some.injEq] at hl
    subst hl
    intro hmem
    have := (List.mem_filter.mp hmem).2
    simp only [decide_not, Bool.not_eq_true', decide_eq_false_iff_not] at this
    apply this
    have hsame : generate_post_hash q = generate_post_hash p := by
      simp only [generate_post_hash, canonicalContent, ht, hi]
    rw [hsame]
    exact List.mem_map_of_mem generate_post_hash hp
  · simp only [find_new_posts, postsOnly, PostsField.getPosts, key,
      Option.some.injEq]
    rw [List.filter_eq_nil_iff]
    intro p hp
    simp only [decide_not, Bool.not_eq_true', decide_eq_false_iff_not, not_not]
    exact List.mem_map_of_mem generate_post_hash hp

/-- **C8**: malformed collections (not a dictionary, or a `posts` entry
that is not a list) make `find_new_posts` return `None`, a value distinct
from the empty list of new posts; a malformed item inside a well-formed
collection is skipped (dropping it does not change the result) and the
call still succeeds. -/
theorem c8_malformed_input :
    (∀ x, find_new_posts .notDict x = none) ∧
    (∀ pf, find_new_posts (.dict pf) .notDict = none) ∧
    (∀ pf, find_new_posts (.dict .notList) (.dict pf) = none) ∧
    (∀ pf, find_new_posts (.dict pf) (.dict .notList) = none) ∧
    (∀ x, find_new_posts .notDict x ≠ some []) ∧
    (∀ oldItems newItems : List PostsItem,
      (find_new_posts (.dict (.list oldItems)) (.dict (.list newItems))).isSome ∧
      find_new_posts (.dict (.list (PostsItem.invalid :: oldItems)))
          (.dict (.list newItems)) =
        find_new_posts (.dict (.list oldItems)) (.dict (.list newItems)) ∧
      find_new_posts (.dict (.list oldItems))
          (.dict (.list (PostsItem.invalid :: newItems))) =
        find_new_posts (.dict (.list oldItems)) (.dict (.list newItems))) := by
  refine ⟨fun x => rfl, ?_, ?_, ?_, fun x => by simp [find_new_posts], ?_⟩
  · intro pf; cases pf <;> rfl
  · intro pf; cases pf <;> rfl
  · intro pf; cases pf <;> rfl
  · intro oldItems newItems
    refine ⟨rfl, ?_, ?_⟩ <;>
      simp [find_new_posts, PostsField.getPosts, List.filterMap_cons,
        PostsItem.asPost]

/-- **C9**: when the relatedness flag is false the endpoint returns the
not-relevant outcome with the data preview and leaves the store untouched,
whatever the date and time fields hold — the relevance check runs before
any parsing, so the parse-error path is unreachable for irrelevant
records. -/
theorem c9_irrelevant_short_circuit (d : ExtractedData) (s : Store)
    (h : d.is_power_interruption_related = false) :
    admin d s = (.notRelevant d, s) := by
  simp [admin, h]

/-- Witness for C9: an irrelevant record with missing date and times. -/
theorem c9_witness :
    (ExtractedData.mk false none none none none none [] [] [] []).date = none ∧
    admin (ExtractedData.mk false none none none none none [] [] [] [])
        Store.empty =
      (.notRelevant (ExtractedData.mk false none none none none none [] [] [] []),
        Store.empty) :=
  ⟨rfl, c9_irrelevant_short_circuit _ Store.empty rfl⟩

/-- Counterexample for C5 as stated: a string that does not match the
compact `HHMMH` form is *not* left unchanged — `clean_time_string` returns
it stripped and uppercased. -/
theorem c5_counterexample :
    isCompactTime ((pyStrip ("8am").data).map upChar) = false ∧
    clean_time_string "8am" = "8AM" ∧ clean_time_string "8am" ≠ "8am" := by
  refine ⟨by decide, by decide, by decide⟩

/-- **C5 (amended)**: after trimming and uppercasing, a five-character
string of four digits followed by `H` is rewritten to `HH:MM` (a colon is
inserted after the first two digits) and then parses to exactly that hour
and minute; every other string is passed on *stripped and uppercased*
(rather than entirely unchanged); concretely `"2000H"` and `"0600H"` parse
to 20:00 and 06:00 combined onto the record's parsed date. -/
theorem c5_time_normalization :
    (∀ h m : Nat, h ≤ 23 → m ≤ 59 →
      parseTime (clean_time_string (String.mk (pad2 h ++ pad2 m ++ ['H']))) =
        some ⟨h, m⟩) ∧
    (∀ s : String, isCompactTime ((pyStrip s.data).map upChar) = false →
      clean_time_string s = String.mk ((pyStrip s.data).map upChar)) ∧
    parseDateStartEnd (some "2025-06-05") (some "2000H") (some "0600H") =
      some (PDate.isoformat ⟨2025, 6, 5⟩,
        ⟨⟨2025, 6, 5⟩, ⟨20, 0⟩⟩, ⟨⟨2025, 6, 5⟩, ⟨6, 0⟩⟩) := by
  refine ⟨clean_parse_compact, ?_, by decide⟩
  intro s h
  simp [clean_time_string, cleanTimeChars, h]

/-- Witness for C5: the compact form at 20:00. -/
theorem c5_witness :
    parseTime (clean_time_string (String.mk (pad2 20 ++ pad2 0 ++ ['H']))) =
      some ⟨20, 0⟩ :=
  c5_time_normalization.1 20 0 (by decide) (by decide)

/-- Counterexample for C6 as stated: on a table that already holds two
rows matching the keys, a get-or-create call returns the first match's id
and leaves the table and counter unchanged — so the second call of the
sequence runs on the identical state with the identical result, and two
matching rows, not exactly one, remain persisted afterwards. -/
theorem c6_counterexample :
    get_or_create_related_item
        [(⟨1, [("name", "Acme Corp")]⟩ : EntityRow),
          ⟨2, [("name", "Acme Corp")]⟩] 3 [("name", "Acme Corp")] ["name"] =
      (some 1, [(⟨1, [("name", "Acme Corp")]⟩ : EntityRow),
        ⟨2, [("name", "Acme Corp")]⟩], 3) ∧
    (([(⟨1, [("name", "Acme Corp")]⟩ : EntityRow),
        ⟨2, [("name", "Acme Corp")]⟩]).filter
      (rowMatchesKeys [("name", "Acme Corp")] ["name"])).length = 2 ∧
    (([(⟨1, [("name", "Acme Corp")]⟩ : EntityRow),
        ⟨2, [("name", "Acme Corp")]⟩]).filter
      (rowMatchesKeys [("name", "Acme Corp")] ["name"])).length ≠ 1 :=
  ⟨by decide, by decide, by decide⟩

/-- **C6 (amended)**: when every match key has a non-null value, calling
`get_or_create_related_item` twice in sequence returns the same identifier
both times, the second call inserts nothing (table and counter are
unchanged), the returned identifier is that of the first matching row, and
afterwards the number of rows matching the keys is `max 1` of what it was —
exactly one when the table did not already hold duplicate matches (the
first call inserts when no match exists). -/
theorem c6_get_or_create_idempotent (tbl : List EntityRow) (nextId : Nat)
    (item : List (String × String)) (keys : List String)
    (hkeys : keys.all (fun k => (assocLookup item k).isSome) = true) :
    ∃ i tbl' next',
      get_or_create_related_item tbl nextId item keys = (some i, tbl', next') ∧
      get_or_create_related_item tbl' next' item keys = (some i, tbl', next') ∧
      (tbl'.filter (rowMatchesKeys item keys)).length =
        max 1 (tbl.filter (rowMatchesKeys item keys)).length ∧
      (∃ r, tbl'.find? (rowMatchesKeys item keys) = some r ∧ r.id = i) := by
  have hself : ∀ n, rowMatchesKeys item keys ⟨n, item⟩ = true := by
    intro n
    simp [rowMatchesKeys, lookupAttr, assocLookup, List.all_eq_true]
  unfold get_or_create_related_item
  rw [if_pos hkeys]
  cases hfind : tbl.find? (rowMatchesKeys item keys) with
  | some r =>
    refine ⟨r.id, tbl, nextId, rfl, ?_, ?_, r, hfind, rfl⟩
    · rw [if_pos hkeys, hfind]
    · have hmem : r ∈ tbl ∧ rowMatchesKeys item keys r = true :=
        ⟨List.mem_of_find?_eq_some hfind, List.find?_some hfind⟩
      have : 0 < (tbl.filter (rowMatchesKeys item keys)).length :=
        List.length_pos.mpr (fun e =>
          (List.filter_eq_nil_iff.mp e) r hmem.1 hmem.2)
      omega
  | none =>
    have hnil : tbl.filter (rowMatchesKeys item keys) = [] := by
      rw [List.filter_eq_nil_iff]
      intro r hr hmatch
      exact absurd (List.find?_eq_none.mp hfind r hr) (by simp [hmatch])
    have hfind2 : (tbl ++ [(⟨nextId, item⟩ : EntityRow)]).find?
        (rowMatchesKeys item keys) = some (⟨nextId, item⟩ : EntityRow) := by
      rw [List.find?_append, hfind]
      simp [hself]
    refine ⟨nextId, tbl ++ [(⟨nextId, item⟩ : EntityRow)], nextId + 1, rfl,
      ?_, ?_, (⟨nextId, item⟩ : EntityRow), hfind2, rfl⟩
    · rw [if_pos hkeys, hfind2]
    · rw [List.filter_append, hnil]
      simp [hself]

/-- Witness for C6: a fresh customer table and the `Acme Corp` row. -/
theorem c6_witness :
    ∃ i tbl' next',
      get_or_create_related_item [] 1 [("name", "Acme Corp")] ["name"] =
        (some i, tbl', next') ∧
      get_or_create_related_item tbl' next' [("name", "Acme Corp")] ["name"] =
        (some i, tbl', next') ∧
      (tbl'.filter (rowMatchesKeys [("name", "Acme Corp")] ["name"])).length =
        max 1 (List.filter (rowMatchesKeys [("name", "Acme Corp")] ["name"])
          []).length ∧
      (∃ r, tbl'.find? (rowMatchesKeys [("name", "Acme Corp")] ["name"]) =
        some r ∧ r.id = i) :=
  c6_get_or_create_idempotent [] 1 [("name", "Acme Corp")] ["name"] (by decide)

/-- Counterexample for C4 as stated: two posts with the same text but
different image-link *sets* whose canonical strings (hence fingerprints
under any function of the canonical string) coincide, because a link may
contain the pipe separator. -/
theorem c4_counterexample :
    generate_post_hash ⟨some "a", ["b|c"], none⟩ =
      generate_post_hash ⟨some "a", ["b", "c"], none⟩ ∧
    (["b|c"] : List String).toFinset ≠ (["b", "c"] : List String).toFinset := by
  exact ⟨by decide, by decide⟩

/-- **C4 (amended)**: restricted to posts whose text and image links are
free of the pipe separator and whose links are nonempty — the situation
the spec's "cannot naturally occur in a URL or post text" assumption
describes — the canonical-string encoding is injective: posts differing in
text or in the set of image links have different fingerprints. -/
theorem c4_fingerprint_sensitivity (p1 p2 : Post)
    (ht1 : pipeFree (postText p1)) (ht2 : pipeFree (postText p2))
    (hl1 : ∀ s ∈ p1.img_links, s ≠ "" ∧ pipeFree s)
    (hl2 : ∀ s ∈ p2.img_links, s ≠ "" ∧ pipeFree s)
    (hne : postText p1 ≠ postText p2 ∨
      p1.img_links.toFinset ≠ p2.img_links.toFinset) :
    generate_post_hash p1 ≠ generate_post_hash p2 := by
  intro h
  obtain ⟨e1, e2⟩ := canonical_inj ht1 ht2 hl1 hl2 h
  rcases hne with hne | hne
  · exact hne e1
  · exact hne e2

/-- Witness for C4: two pipe-free posts with different texts. -/
theorem c4_witness :
    generate_post_hash ⟨some "x", ["u"], none⟩ ≠
      generate_post_hash ⟨some "y", ["u"], none⟩ :=
  c4_fingerprint_sensitivity ⟨some "x", ["u"], none⟩ ⟨some "y", ["u"], none⟩
    (by decide) (by decide) (by decide) (by decide) (Or.inl (by decide))

/-! ### Frame lemmas for the creation loops -/

theorem foldl_preserves {α β γ : Type} (f : β → α → β) (proj : β → γ)
    (h : ∀ s a, proj (f s a) = proj s) : ∀ (l : List α) (s : β),
    proj (l.foldl f s) = proj s := by
  intro l
  induction l with
  | nil => intro s; rfl
  | cons a rest ih =>
    intro s
    rw [List.foldl_cons, ih, h]

theorem barangayLoopU_mainRecords (failOn : List String) (aid : Nat)
    (bs : List (Option String)) (s : Store) :
    (barangayLoopU failOn aid bs s).mainRecords = s.mainRecords := by
  unfold barangayLoopU
  refine foldl_preserves _ _ ?_ bs s
  intro s b
  cases b with
  | none => rfl
  | some bn =>
    dsimp only
    repeat' split
    all_goals rfl

theorem areasLoopU_mainRecords (failOn : List String) (rid : Nat)
    (las : List AreaInputU) (s : Store) :
    (areasLoopU failOn rid las s).mainRecords = s.mainRecords := by
  unfold areasLoopU
  refine foldl_preserves _ _ ?_ las s
  intro s a
  cases ha : a.name with
  | none => rfl
  | some n =>
    dsimp only
    repeat' split
    all_goals first | rfl | rw [barangayLoopU_mainRecords]

theorem customersLoopU_mainRecords (failOn : List String) (rid : Nat)
    (cs : List (Option String)) (s : Store) :
    (customersLoopU failOn rid cs s).mainRecords = s.mainRecords := by
  unfold customersLoopU
  refine foldl_preserves _ _ ?_ cs s
  intro s c
  cases c with
  | none => rfl
  | some cn =>
    dsimp only
    repeat' split
    all_goals rfl

theorem activitiesLoopU_mainRecords (failOn : List String) (rid : Nat)
    (acts : List (Option String)) (s : Store) :
    (activitiesLoopU failOn rid acts s).mainRecords = s.mainRecords := by
  unfold activitiesLoopU
  refine foldl_preserves _ _ ?_ acts s
  intro s c
  cases c with
  | none => rfl
  | some an =>
    dsimp only
    repeat' split
    all_goals rfl

/-- A concrete relevant record for the C7 witness scenario: one affected
area and one top-level customer. -/
def c7ExampleData : ExtractedDataU :=
  ⟨true, some "maintenance", some "2025-06-05", some "0600H", some "1800H",
    some "Line A", [⟨some "Poblacion", []⟩], [some "Acme Corp"], [], []⟩

/-- **C7**: once the creation phase is reached (the date/time fields
parse), a persistence failure on the main `power_interruption_data` insert
is fatal — the call surfaces a server error; a failure on any related
entity or association insert is non-fatal — the call still succeeds and
the main record is persisted with the parsed date and times.  Concretely,
with only the `data_areas` link insert failing, the main record persists,
the area link is skipped, and the customer link is still created. -/
theorem c7_failure_asymmetry :
    (∀ (d : ExtractedDataU) (failOn : List String) (s : Store)
      (td : String) (fs fe : PDateTime),
      parseDateStartEnd d.date d.start_time d.end_time = some (td, fs, fe) →
      "power_interruption_data" ∈ failOn →
      process_and_create_interruption_record d failOn s =
        .error .serverError) ∧
    (∀ (d : ExtractedDataU) (failOn : List String) (s : Store)
      (td : String) (fs fe : PDateTime),
      parseDateStartEnd d.date d.start_time d.end_time = some (td, fs, fe) →
      "power_interruption_data" ∉ failOn →
      ∃ rid s',
        process_and_create_interruption_record d failOn s = .ok (rid, s') ∧
        ∃ row ∈ s'.mainRecords, row.id = rid ∧ row.date = td ∧
          row.start_time = some fs.isoformat ∧
          row.end_time = some fe.isoformat) ∧
    (∃ s', process_and_create_interruption_record c7ExampleData ["data_areas"]
        Store.empty = .ok (1, s') ∧
      s'.mainRecords.length = 1 ∧ s'.dataAreas = [] ∧
      s'.dataCustomers.length = 1) := by
  refine ⟨?_, ?_, ?_⟩
  · intro d failOn s td fs fe hp hmem
    simp only [process_and_create_interruption_record, hp]
    rw [if_pos hmem]
  · intro d failOn s td fs fe hp hmem
    simp only [process_and_create_interruption_record, hp]
    rw [if_neg hmem]
    refine ⟨_, _, rfl, ?_⟩
    rw [activitiesLoopU_mainRecords, customersLoopU_mainRecords,
      areasLoopU_mainRecords]
    exact ⟨_, List.mem_append_right _ (List.mem_singleton_self _),
      rfl, rfl, rfl, rfl⟩
  · exact ⟨_, rfl, by decide, by decide, by decide⟩

/-- Witness for C7: both failure regimes at the concrete example record. -/
theorem c7_witness :
    process_and_create_interruption_record c7ExampleData
      ["power_interruption_data"] Store.empty = .error .serverError ∧
    ∃ rid s', process_and_create_interruption_record c7ExampleData []
        Store.empty = .ok (rid, s') ∧
      ∃ row ∈ s'.mainRecords, row.id = rid ∧ row.date = "2025-06-05" ∧
        row.start_time = some (PDateTime.isoformat ⟨⟨2025, 6, 5⟩, ⟨6, 0⟩⟩) ∧
        row.end_time = some (PDateTime.isoformat ⟨⟨2025, 6, 5⟩, ⟨18, 0⟩⟩) :=
  ⟨c7_failure_asymmetry.1 c7ExampleData ["power_interruption_data"]
      Store.empty "2025-06-05" ⟨⟨2025, 6, 5⟩, ⟨6, 0⟩⟩ ⟨⟨2025, 6, 5⟩, ⟨18, 0⟩⟩
      (by decide) (by decide),
    c7_failure_asymmetry.2.1 c7ExampleData [] Store.empty "2025-06-05"
      ⟨⟨2025, 6, 5⟩, ⟨6, 0⟩⟩ ⟨⟨2025, 6, 5⟩, ⟨18, 0⟩⟩ (by decide) (by decide)⟩

/-! ### C10: unparseable stored timestamps -/

/-- A stored timestamp field that is missing, empty, or not parseable as an
ISO datetime. -/
def badField (x : Option String) : Prop :=
  x = none ∨ x = some "" ∨ ∃ str, x = some str ∧ isoparse str = none

theorem parseTruthy_bad {x : Option String} (h : badField x) :
    parseTruthy x = some none ∨ parseTruthy x = none := by
  rcases h with h | h | ⟨str, h, hp⟩
  · subst h; left; rfl
  · subst h; left; rfl
  · subst h
    by_cases hs : str = ""
    · left; simp [parseTruthy, hs]
    · right; simp [parseTruthy, hs, hp]

theorem storedTimes_ne {st en : Option String}
    (h : badField st ∨ badField en) (fs fe : PDateTime) :
    storedTimes st en ≠ (some fs, some fe) := by
  intro heq
  unfold storedTimes at heq
  rcases h with h | h
  · rcases parseTruthy_bad h with h' | h' <;> rw [h'] at heq
    · cases hq : parseTruthy en <;> rw [hq] at heq <;> simp at heq
    · simp at heq
  · cases hp : parseTruthy st <;> rw [hp] at heq
    · simp at heq
    · rcases parseTruthy_bad h with h' | h' <;> rw [h'] at heq <;> simp at heq

theorem recordMatches_false_of_badTimes (s : Store) (fs fe : PDateTime)
    (names : Finset String) (r : MainRow)
    (h : badField r.start_time ∨ badField r.end_time) :
    recordMatches s fs fe names r = false := by
  have hne := storedTimes_ne h fs fe
  simp [recordMatches, hne]

/-- **C10**: an existing same-date record whose stored `start_time` or
`end_time` is missing, empty or unparseable as an ISO datetime never
counts as a duplicate; when every same-date record is of that kind the
endpoint proceeds past the duplicate check and creates a new record
instead of aborting. -/
theorem c10_unparseable_stored_times (d : ExtractedData) (s : Store)
    (td : String) (fs fe : PDateTime)
    (hrel : d.is_power_interruption_related = true)
    (hp : parseDateStartEnd d.date d.start_time d.end_time = some (td, fs, fe))
    (hbad : ∀ r ∈ s.mainRecords, r.date = td →
      badField r.start_time ∨ badField r.end_time) :
    (∀ r ∈ s.mainRecords, r.date = td →
      recordMatches s fs fe (newAreasSet d) r = false) ∧
    ∃ i s', admin d s = (.created i d, s') := by
  have hmm : ∀ r ∈ s.mainRecords, r.date = td →
      recordMatches s fs fe (newAreasSet d) r = false :=
    fun r hr hd => recordMatches_false_of_badTimes s fs fe _ r (hbad r hr hd)
  refine ⟨hmm, ?_⟩
  simp only [admin, hrel, Bool.not_true, Bool.false_eq_true, if_false, hp]
  have hfind : (s.mainRecords.filter (fun r => r.date == td)).find?
      (recordMatches s fs fe (newAreasSet d)) = none := by
    rw [List.find?_eq_none]
    intro r hr
    have hmem := List.mem_filter.mp hr
    have hdate : r.date = td := by simpa using hmem.2
    simp [hmm r hmem.1 hdate]
  rw [hfind]
  exact ⟨_, _, rfl⟩

/-- The store of the C10 witness: one same-date record whose stored
`start_time` is the unparseable string `garbage`. -/
def c10Store : Store :=
  ⟨2, [⟨1, true, none, "2025-06-05", some "garbage",
    some "2025-06-05T18:00:00", none, none⟩],
    [], [], [], [], [], [], [], [], [], [], [], []⟩

/-- The extracted record of the C10 witness. -/
def c10Data : ExtractedData :=
  ⟨true, some "maintenance", some "2025-06-05", some "0600H", some "1800H",
    some "Line A", [⟨some "Poblacion", []⟩], [], [], []⟩

/-- Witness for C10: the garbage-timestamped same-date record is passed
over and a new record is created. -/
theorem c10_witness :
    (∀ r ∈ c10Store.mainRecords, r.date = "2025-06-05" →
      recordMatches c10Store ⟨⟨2025, 6, 5⟩, ⟨6, 0⟩⟩ ⟨⟨2025, 6, 5⟩, ⟨18, 0⟩⟩
        (newAreasSet c10Data) r = false) ∧
    ∃ i s', admin c10Data c10Store = (.created i c10Data, s') :=
  c10_unparseable_stored_times c10Data c10Store "2025-06-05"
    ⟨⟨2025, 6, 5⟩, ⟨6, 0⟩⟩ ⟨⟨2025, 6, 5⟩, ⟨18, 0⟩⟩ rfl (by decide)
    (by
      intro r hr hd
      simp only [c10Store, List.mem_singleton] at hr
      subst hr
      exact Or.inl (Or.inr (Or.inr ⟨"garbage", rfl, by decide⟩)))

/-! ### C1 infrastructure: identifiers, well-formedness and the effect of
the creation flow on the linked area names -/

/-- Well-formedness of the `affected_areas` table: serial identifiers are
positive, below the counter, and distinct. -/
def AreasWF (s : Store) : Prop :=
  1 ≤ s.nextId ∧ (∀ a ∈ s.areas, 1 ≤ a.id ∧ a.id < s.nextId) ∧
    (s.areas.map EntityRow.id).Nodup

theorem findById_append_of_some {tbl : List EntityRow} {i : Nat}
    {r : EntityRow} (h : findById tbl i = some r) (ext : List EntityRow) :
    findById (tbl ++ ext) i = some r := by
  unfold findById at *
  rw [List.find?_append, h]
  rfl

theorem findById_of_mem_nodup {tbl : List EntityRow} {r : EntityRow}
    (hnd : (tbl.map EntityRow.id).Nodup) (hm : r ∈ tbl) :
    findById tbl r.id = some r := by
  induction tbl with
  | nil => cases hm
  | cons a rest ih =>
    rcases List.mem_cons.mp hm with rfl | hm'
    · unfold findById
      simp [List.find?_cons]
    · have hnd' := hnd
      rw [List.map_cons, List.nodup_cons] at hnd'
      have hne : a.id ≠ r.id := by
        intro e
        exact hnd'.1 (e ▸ List.mem_map_of_mem EntityRow.id hm')
      unfold findById at *
      rw [List.find?_cons]
      simp only [show (a.id == r.id) = false from by simp [hne]]
      exact ih hnd'.2 hm'

/-- `get_or_create_related_item` on a well-formed table with a single
`name` key: the returned identifier is positive and resolves (by id) to a
row carrying that name; the table only grows and stays well-formed. -/
theorem get_or_create_name_spec (tbl : List EntityRow) (nextId : Nat)
    (n : String) (h1 : 1 ≤ nextId)
    (hid : ∀ a ∈ tbl, 1 ≤ a.id ∧ a.id < nextId)
    (hnd : (tbl.map EntityRow.id).Nodup) :
    ∃ aid tbl' next',
      get_or_create_related_item tbl nextId [("name", n)] ["name"] =
        (some aid, tbl', next') ∧
      1 ≤ aid ∧ (∃ ext, tbl' = tbl ++ ext) ∧ nextId ≤ next' ∧ 1 ≤ next' ∧
      (∀ a ∈ tbl', 1 ≤ a.id ∧ a.id < next') ∧
      (tbl'.map EntityRow.id).Nodup ∧
      (∃ row, findById tbl' aid = some row ∧ lookupAttr row "name" = some n) := by
  have hkeys : (["name"].all
      (fun k => (assocLookup [("name", n)] k).isSome)) = true := rfl
  unfold get_or_create_related_item
  rw [if_pos hkeys]
  cases hfind : tbl.find? (rowMatchesKeys [("name", n)] ["name"]) with
  | some r =>
    have hrmem : r ∈ tbl := List.mem_of_find?_eq_some hfind
    have hmatch := List.find?_some hfind
    have hname : lookupAttr r "name" = some n := by
      have := hmatch
      unfold rowMatchesKeys at this
      simp only [List.all_cons, List.all_nil, Bool.and_true] at this
      have e : assocLookup [("name", n)] "name" = some n := rfl
      rw [e] at this
      exact beq_iff_eq.mp this
    exact ⟨r.id, tbl, nextId, rfl, (hid r hrmem).1, ⟨[], by simp⟩,
      le_refl _, h1, hid, hnd, r, findById_of_mem_nodup hnd hrmem, hname⟩
  | none =>
    refine ⟨nextId, tbl ++ [⟨nextId, [("name", n)]⟩], nextId + 1, rfl, h1,
      ⟨_, rfl⟩, Nat.le_succ _, by omega, ?_, ?_, ?_⟩
    · intro a ha
      rcases List.mem_append.mp ha with ha | ha
      · have := hid a ha
        omega
      · simp only [List.mem_singleton] at ha
        subst ha
        simp only
        omega
    · rw [List.map_append]
      simp only [List.map_cons, List.map_nil]
      rw [List.nodup_append]
      refine ⟨hnd, List.nodup_singleton _, ?_⟩
      intro x hx hx2
      simp only [List.mem_singleton] at hx2
      subst hx2
      obtain ⟨a, ha, rfl⟩ := List.mem_map.mp hx
      exact absurd (hid a ha).2 (by omega)
    · refine ⟨⟨nextId, [("name", n)]⟩, ?_, rfl⟩
      unfold findById
      rw [List.find?_append]
      have : tbl.find? (fun r => r.id == nextId) = none := by
        rw [List.find?_eq_none]
        intro a ha
        simp only [beq_iff_eq]
        exact fun e => absurd (hid a ha).2 (by omega)
      rw [this]
      simp

/-- Frame of the creation loops that do not touch the main table, the
areas table or the area links. -/
def PreservesAD (s t : Store) : Prop :=
  t.mainRecords = s.mainRecords ∧ t.areas = s.areas ∧
    t.dataAreas = s.dataAreas ∧ s.nextId ≤ t.nextId

theorem PreservesAD.refl (s : Store) : PreservesAD s s :=
  ⟨rfl, rfl, rfl, le_refl _⟩

theorem PreservesAD.trans {s t u : Store} (h1 : PreservesAD s t)
    (h2 : PreservesAD t u) : PreservesAD s u :=
  ⟨h2.1.trans h1.1, h2.2.1.trans h1.2.1, h2.2.2.1.trans h1.2.2.1,
    le_trans h1.2.2.2 h2.2.2.2⟩

theorem barangayLoop_preservesAD (aid : Nat) : ∀ (bs : List String) (s : Store),
    PreservesAD s (barangayLoop aid bs s) := by
  intro bs
  induction bs with
  | nil => intro s; exact PreservesAD.refl s
  | cons b rest ih =>
    intro s
    simp only [barangayLoop]
    refine PreservesAD.trans ?_ (ih _)
    split
    · exact PreservesAD.refl s
    · split
      · exact PreservesAD.refl s
      · exact ⟨rfl, rfl, rfl, Nat.le_succ _⟩

theorem noticePersonnelLoop_preservesAD (nid : Nat) :
    ∀ (ps : List PersonInput) (s : Store),
    PreservesAD s (noticePersonnelLoop nid ps s) := by
  intro ps
  induction ps with
  | nil => intro s; exact PreservesAD.refl s
  | cons p rest ih =>
    intro s
    simp only [noticePersonnelLoop]
    refine PreservesAD.trans ?_ (ih _)
    have hgrow : ∀ tbl next item keys, next ≤
        (get_or_create_related_item tbl next item keys).2.2 := by
      intro tbl next item keys
      unfold get_or_create_related_item
      split
      · split <;> simp
      · simp
    split
    · split
      · exact PreservesAD.refl s
      · split
        · split
          · exact ⟨rfl, rfl, rfl, hgrow ..⟩
          · exact ⟨rfl, rfl, rfl, hgrow ..⟩
        · exact ⟨rfl, rfl, rfl, hgrow ..⟩
    · exact PreservesAD.refl s

theorem noticeCustomersLoop_preservesAD (nid : Nat) :
    ∀ (cs : List String) (s : Store),
    PreservesAD s (noticeCustomersLoop nid cs s) := by
  intro cs
  induction cs with
  | nil => intro s; exact PreservesAD.refl s
  | cons cn rest ih =>
    intro s
    simp only [noticeCustomersLoop]
    refine PreservesAD.trans ?_ (ih _)
    have hgrow : ∀ tbl next item keys, next ≤
        (get_or_create_related_item tbl next item keys).2.2 := by
      intro tbl next item keys
      unfold get_or_create_related_item
      split
      · split <;> simp
      · simp
    split
    · exact PreservesAD.refl s
    · split
      · split
        · exact ⟨rfl, rfl, rfl, hgrow ..⟩
        · exact ⟨rfl, rfl, rfl, hgrow ..⟩
      · exact ⟨rfl, rfl, rfl, hgrow ..⟩

theorem noticeActivitiesLoop_preservesAD (nid : Nat) :
    ∀ (acts : List String) (s : Store),
    PreservesAD s (noticeActivitiesLoop nid acts s) := by
  intro acts
  induction acts with
  | nil => intro s; exact PreservesAD.refl s
  | cons an rest ih =>
    intro s
    simp only [noticeActivitiesLoop]
    refine PreservesAD.trans ?_ (ih _)
    have hgrow : ∀ tbl next item keys, next ≤
        (get_or_create_related_item tbl next item keys).2.2 := by
      intro tbl next item keys
      unfold get_or_create_related_item
      split
      · split <;> simp
      · simp
    split
    · exact PreservesAD.refl s
    · split
      · split
        · exact ⟨rfl, rfl, rfl, hgrow ..⟩
        · exact ⟨rfl, rfl, rfl, hgrow ..⟩
      · exact ⟨rfl, rfl, rfl, hgrow ..⟩

theorem customersLoop_preservesAD (rid : Nat) :
    ∀ (cs : List String) (s : Store),
    PreservesAD s (customersLoop rid cs s) := by
  intro cs
  induction cs with
  | nil => intro s; exact PreservesAD.refl s
  | cons cn rest ih =>
    intro s
    simp only [customersLoop]
    refine PreservesAD.trans ?_ (ih _)
    have hgrow : ∀ tbl next item keys, next ≤
        (get_or_create_related_item tbl next item keys).2.2 := by
      intro tbl next item keys
      unfold get_or_create_related_item
      split
      · split <;> simp
      · simp
    split
    · exact PreservesAD.refl s
    · split
      · split
        · exact ⟨rfl, rfl, rfl, hgrow ..⟩
        · exact ⟨rfl, rfl, rfl, hgrow ..⟩
      · exact ⟨rfl, rfl, rfl, hgrow ..⟩

theorem activitiesLoop_preservesAD (rid : Nat) :
    ∀ (acts : List String) (s : Store),
    PreservesAD s (activitiesLoop rid acts s) := by
  intro acts
  induction acts with
  | nil => intro s; exact PreservesAD.refl s
  | cons an rest ih =>
    intro s
    simp only [activitiesLoop]
    refine PreservesAD.trans ?_ (ih _)
    have hgrow : ∀ tbl next item keys, next ≤
        (get_or_create_related_item tbl next item keys).2.2 := by
      intro tbl next item keys
      unfold get_or_create_related_item
      split
      · split <;> simp
      · simp
    split
    · exact PreservesAD.refl s
    · split
      · split
        · exact ⟨rfl, rfl, rfl, hgrow ..⟩
        · exact ⟨rfl, rfl, rfl, hgrow ..⟩
      · exact ⟨rfl, rfl, rfl, hgrow ..⟩

theorem noticeFlow_preservesAD (d : ExtractedData) (s : Store) :
    PreservesAD s (noticeFlow d s).2 := by
  unfold noticeFlow
  split
  · exact PreservesAD.refl s
  · split
    · split
      · exact PreservesAD.refl s
      · split
        · exact PreservesAD.refl s
        · refine PreservesAD.trans ?_ (noticeActivitiesLoop_preservesAD ..)
          refine PreservesAD.trans ?_ (noticeCustomersLoop_preservesAD ..)
          refine PreservesAD.trans ?_ (noticePersonnelLoop_preservesAD ..)
          exact ⟨rfl, rfl, rfl, Nat.le_succ _⟩
    · exact PreservesAD.refl s

/-- The (truthy) area names a list of `data_areas` links resolves to in a
store. -/
def linkNames (s : Store) (links : List Link) : List String :=
  (links.filterMap (fun l => (findById s.areas l.rightId).bind
    (fun a => lookupAttr a "name"))).filter (fun n => n != "")

/-- The truthy names of a list of extracted areas. -/
def truthyNames (las : List AreaInput) : List String :=
  (las.filterMap (fun a => a.name)).filter (fun n => n != "")

theorem newAreasSet_eq (d : ExtractedData) :
    newAreasSet d = (truthyNames d.affected_areas).toFinset := rfl

theorem recordAreaNames_eq (s : Store) (rid : Nat) :
    recordAreaNames s rid =
      (linkNames s (s.dataAreas.filter (fun l => l.leftId == rid))).toFinset := rfl

/-- Effect of the area loop: the store stays well-formed, the main table
is untouched, the areas table only grows, and the loop appends to
`data_areas` exactly links carrying the record's id whose resolved name
set (in the final store) is the set of truthy extracted area names. -/
theorem areasLoop_spec (rid : Nat) : ∀ (las : List AreaInput) (s : Store),
    AreasWF s →
    AreasWF (areasLoop rid las s) ∧
    (areasLoop rid las s).mainRecords = s.mainRecords ∧
    (∃ ext, (areasLoop rid las s).areas = s.areas ++ ext) ∧
    (∃ new, (areasLoop rid las s).dataAreas = s.dataAreas ++ new ∧
      (∀ l ∈ new, l.leftId = rid) ∧
      (linkNames (areasLoop rid las s) new).toFinset =
        (truthyNames las).toFinset) := by
  intro las
  induction las with
  | nil =>
    intro s hwf
    exact ⟨hwf, rfl, ⟨[], by simp [areasLoop]⟩, [], by simp [areasLoop],
      by simp, rfl⟩
  | cons a rest ih =>
    intro s hwf
    simp only [areasLoop]
    cases hname : a.name with
    | none =>
      simp only [hname]
      obtain ⟨ihwf, ihmain, ihext, new, hnew, hleft, hnames⟩ := ih s hwf
      refine ⟨ihwf, ihmain, ihext, new, hnew, hleft, ?_⟩
      rw [hnames]
      simp [truthyNames, List.filterMap_cons, hname]
    | some n =>
      simp only [hname]
      by_cases hn : n = ""
      · subst hn
        rw [if_pos rfl]
        obtain ⟨ihwf, ihmain, ihext, new, hnew, hleft, hnames⟩ := ih s hwf
        refine ⟨ihwf, ihmain, ihext, new, hnew, hleft, ?_⟩
        rw [hnames]
        simp [truthyNames, List.filterMap_cons, hname]
      · rw [if_neg hn]
        obtain ⟨aid, tbl', next', hgoc, haid1, ⟨ext1, hext1⟩, hle, h1', hid',
          hnd', row, hrow, hrowname⟩ :=
          get_or_create_name_spec s.areas s.nextId n hwf.1 hwf.2.1 hwf.2.2
        simp only [hgoc]
        rw [if_pos (show aid ≠ 0 from by omega)]
        show AreasWF (areasLoop rid rest (barangayLoop aid a.barangays
            { s with
              areas := tbl',
              dataAreas := s.dataAreas ++ [⟨rid, aid⟩],
              nextId := next' })) ∧ _
        set t := barangayLoop aid a.barangays
          { s with
            areas := tbl',
            dataAreas := s.dataAreas ++ [⟨rid, aid⟩],
            nextId := next' } with ht
        have hb := barangayLoop_preservesAD aid a.barangays
          { s with
            areas := tbl',
            dataAreas := s.dataAreas ++ [⟨rid, aid⟩],
            nextId := next' }
        rw [← ht] at hb
        have htmain : t.mainRecords = s.mainRecords := hb.1
        have htareas : t.areas = tbl' := hb.2.1
        have htdata : t.dataAreas = s.dataAreas ++ [⟨rid, aid⟩] := hb.2.2.1
        have htnext : next' ≤ t.nextId := hb.2.2.2
        have hwft : AreasWF t := by
          refine ⟨by omega, ?_, by rw [htareas]; exact hnd'⟩
          intro x hx
          rw [htareas] at hx
          have := hid' x hx
          omega
        obtain ⟨ihwf, ihmain, ⟨ext2, hext2⟩, new2, hnew2, hleft2, hnames2⟩ :=
          ih t hwft
        refine ⟨ihwf, ihmain.trans htmain, ⟨ext1 ++ ext2, ?_⟩,
          ⟨rid, aid⟩ :: new2, ?_, ?_, ?_⟩
        · rw [hext2, htareas, hext1, List.append_assoc]
        · rw [hnew2, htdata, List.append_assoc, List.singleton_append]
        · intro l hl
          rcases List.mem_cons.mp hl with rfl | hl
          · rfl
          · exact hleft2 l hl
        · have hfind : findById (areasLoop rid rest t).areas aid = some row := by
            rw [hext2, htareas]
            exact findById_append_of_some hrow ext2
          simp only [linkNames, List.filterMap_cons, hfind, Option.some_bind,
            hrowname]
          rw [List.filter_cons]
          simp only [show (n != "") = true from by simp [hn], if_true,
            List.toFinset_cons]
          simp only [linkNames] at hnames2
          rw [hnames2]
          simp [truthyNames, List.filterMap_cons, hname, List.filter_cons, hn]

theorem linkNames_congr {s s' : Store} (h : s.areas = s'.areas)
    (links : List Link) : linkNames s links = linkNames s' links := by
  unfold linkNames findById
  rw [h]

/-- Effect of the creation phase on an empty store: it returns `Created`
with a fresh id, stores exactly one main record carrying the target date
and the serialized start/end datetimes, and links exactly the truthy
extracted area names to it. -/
theorem createFlow_spec (d : ExtractedData) (td : String) (fs fe : PDateTime)
    (s : Store) (h1 : 1 ≤ s.nextId) (hareas : s.areas = [])
    (hdata : s.dataAreas = []) (hmain : s.mainRecords = []) :
    ∃ rid s', createFlow d td fs fe s = (.created rid d, s') ∧
      (∃ row : MainRow, s'.mainRecords = [row] ∧ row.id = rid ∧
        row.date = td ∧ row.start_time = some fs.isoformat ∧
        row.end_time = some fe.isoformat) ∧
      recordAreaNames s' rid = newAreasSet d := by
  have hn := noticeFlow_preservesAD d s
  refine ⟨(noticeFlow d s).2.nextId, _, rfl, ?_, ?_⟩
  all_goals
    set ns := noticeFlow d s with hns
    set s0 := ns.2 with hs0
    set rid := s0.nextId with hrid
    set row : MainRow := ⟨rid, d.is_power_interruption_related, d.reason, td,
      some fs.isoformat, some fe.isoformat, d.affected_line,
      if ns.1.getD 0 ≠ 0 then ns.1 else none⟩ with hrow
    set s2 : Store := { s0 with
      mainRecords := s0.mainRecords ++ [row],
      nextId := s0.nextId + 1 } with hs2
    have hs0areas : s0.areas = [] := hn.2.1.trans hareas
    have hs0data : s0.dataAreas = [] := hn.2.2.1.trans hdata
    have hs0main : s0.mainRecords = [] := hn.1.trans hmain
    have hs0next : 1 ≤ s0.nextId := le_trans h1 hn.2.2.2
    have hwf2 : AreasWF s2 := by
      refine ⟨by rw [show s2.nextId = s0.nextId + 1 from rfl]; omega, ?_, ?_⟩
      · intro a ha
        rw [show s2.areas = s0.areas from rfl, hs0areas] at ha
        cases ha
      · rw [show s2.areas = s0.areas from rfl, hs0areas]
        exact List.nodup_nil
    obtain ⟨hwf3, hmain3, ⟨ext3, hext3⟩, new3, hnew3, hleft3, hnames3⟩ :=
      areasLoop_spec rid d.affected_areas s2 hwf2
    set s3 := areasLoop rid d.affected_areas s2 with hs3
    have hc := customersLoop_preservesAD rid d.affected_customers s3
    set s4 := customersLoop rid d.affected_customers s3 with hs4
    have ha := activitiesLoop_preservesAD rid d.specific_activities s4
    set s5 := activitiesLoop rid d.specific_activities s4 with hs5
    have hmain5 : s5.mainRecords = [row] := by
      rw [ha.1, hc.1, hmain3, show s2.mainRecords = s0.mainRecords ++ [row]
        from rfl, hs0main, List.nil_append]
  · exact ⟨row, hmain5, rfl, rfl, rfl, rfl⟩
  · rw [recordAreaNames_eq]
    have hdata5 : s5.dataAreas = new3 := by
      rw [ha.2.2.1, hc.2.2.1, hnew3, show s2.dataAreas = s0.dataAreas from rfl,
        hs0data, List.nil_append]
    have hareas5 : s5.areas = s3.areas := by rw [ha.2.1, hc.2.1]
    rw [hdata5]
    rw [List.filter_eq_self.mpr (fun l hl => by simp [hleft3 l hl])]
    rw [linkNames_congr hareas5, hnames3, newAreasSet_eq]

/-- **C1**: if some existing same-date record matches the parsed start/end
datetimes and the affected-area name set, the endpoint returns the
duplicate message with a matching existing record's identifier and
performs no writes (the store is returned unchanged); and reconciling the
same relevant record twice from an empty store yields `Created` and then
`Duplicate` of the created identifier, leaving exactly one main record. -/
theorem c1_duplicate_suppression :
    (∀ (d : ExtractedData) (s : Store) (td : String) (fs fe : PDateTime),
      d.is_power_interruption_related = true →
      parseDateStartEnd d.date d.start_time d.end_time = some (td, fs, fe) →
      (∃ r ∈ s.mainRecords, r.date = td ∧
        recordMatches s fs fe (newAreasSet d) r = true) →
      ∃ i, admin d s = (.duplicate i d, s) ∧
        ∃ r ∈ s.mainRecords, r.id = i ∧ r.date = td ∧
          recordMatches s fs fe (newAreasSet d) r = true) ∧
    (∀ (d : ExtractedData) (i : Nat) (s1 : Store),
      admin d Store.empty = (.created i d, s1) →
      s1.mainRecords.length = 1 ∧ admin d s1 = (.duplicate i d, s1)) := by
  constructor
  · intro d s td fs fe hrel hp hex
    simp only [admin, hrel, Bool.not_true, Bool.false_eq_true, if_false, hp]
    obtain ⟨r0, hr0mem, hr0date, hr0match⟩ := hex
    have hsome : ((s.mainRecords.filter (fun r => r.date == td)).find?
        (recordMatches s fs fe (newAreasSet d))).isSome := by
      rw [List.find?_isSome]
      exact ⟨r0, List.mem_filter.mpr ⟨hr0mem, by simp [hr0date]⟩, hr0match⟩
    obtain ⟨r, hr⟩ := Option.isSome_iff_exists.mp hsome
    rw [hr]
    have hmemf := List.mem_filter.mp (List.mem_of_find?_eq_some hr)
    exact ⟨r.id, rfl, r, hmemf.1, rfl, by simpa using hmemf.2,
      List.find?_some hr⟩
  · intro d i s1 hcall
    cases hrel : d.is_power_interruption_related with
    | false => simp [admin, hrel] at hcall
    | true =>
      cases hp : parseDateStartEnd d.date d.start_time d.end_time with
      | none => simp [admin, hrel, hp] at hcall
      | some tdfsfe =>
        obtain ⟨td, fs, fe⟩ := tdfsfe
        have hC : admin d Store.empty = createFlow d td fs fe Store.empty := by
          simp only [admin, hrel, Bool.not_true, Bool.false_eq_true, if_false,
            hp]
          rfl
        obtain ⟨rid, s', hcf, ⟨row, hrows, hrowid, hrowdate, hrowst, hrowen⟩,
          hnames⟩ := createFlow_spec d td fs fe Store.empty (le_refl 1)
            rfl rfl rfl
        rw [hC, hcf] at hcall
        injection hcall with hres hstore
        injection hres with hid hprev
        subst hstore
        subst hid
        refine ⟨by rw [hrows]; rfl, ?_⟩
        simp only [admin, hrel, Bool.not_true, Bool.false_eq_true, if_false,
          hp]
        have hfilter : s'.mainRecords.filter (fun r => r.date == td) = [row] := by
          rw [hrows]
          simp [hrowdate]
        rw [hfilter]
        obtain ⟨hrt1, hrt2⟩ := parseDateStartEnd_roundtrip hp
        have hst : storedTimes row.start_time row.end_time =
            (some fs, some fe) := by
          rw [hrowst, hrowen]
          simp [storedTimes, parseTruthy, isoformat_ne_empty fs,
            isoformat_ne_empty fe, hrt1, hrt2]
        have hmatch : recordMatches s' fs fe (newAreasSet d) row = true := by
          unfold recordMatches
          rw [hst]
          simp [hrowid, hnames]
        rw [List.find?_cons]
        simp only [hmatch, if_true]
        rw [hrowid]

/-- The extracted record of the C1 witness. -/
def c1Data : ExtractedData :=
  ⟨true, some "maintenance", some "2025-06-05", some "0600H", some "1800H",
    some "Line A", [⟨some "Poblacion", []⟩], [], [], []⟩

/-- A store already holding the matching record of the C1 witness. -/
def c1Store : Store :=
  ⟨3, [⟨1, true, some "maintenance", "2025-06-05", some "2025-06-05T06:00:00",
    some "2025-06-05T18:00:00", some "Line A", none⟩],
    [], [⟨2, [("name", "Poblacion")]⟩], [], [], [], [],
    [⟨1, 2⟩], [], [], [], [], []⟩

/-- Witness for C1: the matching store yields the duplicate outcome
unchanged, and create-then-reconcile from the empty store yields the
duplicate of the created id with exactly one stored record. -/
theorem c1_witness :
    (∃ i, admin c1Data c1Store = (.duplicate i c1Data, c1Store) ∧
      ∃ r ∈ c1Store.mainRecords, r.id = i ∧ r.date = "2025-06-05" ∧
        recordMatches c1Store ⟨⟨2025, 6, 5⟩, ⟨6, 0⟩⟩ ⟨⟨2025, 6, 5⟩, ⟨18, 0⟩⟩
          (newAreasSet c1Data) r = true) ∧
    ((admin c1Data Store.empty).2.mainRecords.length = 1 ∧
      admin c1Data (admin c1Data Store.empty).2 =
        (.duplicate 1 c1Data, (admin c1Data Store.empty).2)) :=
  ⟨c1_duplicate_suppression.1 c1Data c1Store "2025-06-05"
      ⟨⟨2025, 6, 5⟩, ⟨6, 0⟩⟩ ⟨⟨2025, 6, 5⟩, ⟨18, 0⟩⟩ rfl (by decide) (by decide),
    c1_duplicate_suppression.2 c1Data 1 (admin c1Data Store.empty).2 (by decide)⟩

/-- Witness for C2: the spec's diff scenario — `old = [A]`,
`new = [A', C]` with `A'` differing from `A` only in timestamp — returns
exactly `[C]`. -/
theorem c2_witness :
    find_new_posts (postsOnly [⟨some "a", ["l1"], some "1d"⟩])
        (postsOnly [⟨some "a", ["l1"], some "12h"⟩, ⟨some "c", [], some "5m"⟩]) =
      some [⟨some "c", [], some "5m"⟩] := by
  have h := (c2_find_new_posts_diff [⟨some "a", ["l1"], some "1d"⟩]
    [⟨some "a", ["l1"], some "12h"⟩, ⟨some "c", [], some "5m"⟩]).1
  rw [h]
  decide

/-- Witness for C8: a non-dictionary input fails distinctly from an empty
result, and an invalid item inside a valid collection is skipped without
failing the call. -/
theorem c8_witness :
    find_new_posts .notDict (.dict (.list [])) = none ∧
    (find_new_posts (.dict (.list [PostsItem.invalid]))
      (.dict (.list [PostsItem.invalid]))).isSome :=
  ⟨c8_malformed_input.1 _, (c8_malformed_input.2.2.2.2.2 _ _).1⟩
